import Mathlib

/-!
Verification development for the portfolio CMS publishing engine
(`src/lib/server/admin/projectService.ts`, `src/lib/server/mediaService.ts`
and the supporting mongoose models), shallowly embedded in Lean 4.

Conventions of the embedding:
* ObjectIds and timestamps are modelled as `Nat` (freshness comes from an
  explicit counter in the store / an explicit `now` argument).
* JavaScript strings are modelled as Lean `String` (Unicode scalar values);
  `s.length` is the scalar count, `trim` is Lean's whitespace trim.
* Async database code becomes explicit state passing over a `Store` record;
  a mongoose transaction body is a function `Store → Except AdminError (Store × α)`,
  an error discards the intermediate store (abort semantics).
* The unbounded `while (true)` slug-probing loop is given explicit fuel; the
  theorems show the fuel used by the service is always sufficient.
-/

namespace ArchPrj

/-! ## Text utilities (src/lib/utils/text.ts) -/

/-- A lowercase ASCII letter or digit, the character class `[a-z0-9]`
(codepoints 97-122 and 48-57). -/
def isLowerAlnum (c : Char) : Bool :=
  (97 ≤ c.toNat && c.toNat ≤ 122) || (48 ≤ c.toNat && c.toNat ≤ 57)

/-- JS `String.prototype.trim`: drop whitespace from both ends. -/
def jsTrim (s : String) : String :=
  String.mk (((s.data.dropWhile Char.isWhitespace).reverse.dropWhile Char.isWhitespace).reverse)

/-- JS `String.prototype.split` with a single-character separator (empty
segments preserved). -/
def splitOnCharGo (delim : Char) (cur : List Char) : List Char → List String
  | [] => [String.mk cur.reverse]
  | c :: cs =>
    if c = delim then String.mk cur.reverse :: splitOnCharGo delim [] cs
    else splitOnCharGo delim (c :: cur) cs

/-- Split a string on one delimiter character. -/
def splitOnChar (delim : Char) (s : String) : List String :=
  splitOnCharGo delim [] s.data

/-- Maximal runs of non-separator characters (JS `split` on a separator-run
regex yields these, plus empty edge segments that the callers filter out). -/
def tokenRunsGo (sep : Char → Bool) (cur : List Char) : List Char → List (List Char)
  | [] => if cur.isEmpty then [] else [cur.reverse]
  | c :: cs =>
    if sep c then
      if cur.isEmpty then tokenRunsGo sep [] cs
      else cur.reverse :: tokenRunsGo sep [] cs
    else tokenRunsGo sep (c :: cur) cs

/-- State machine for the regex replace `[^a-z0-9]+` to a single hyphen: the
flag records whether the previous character belonged to a non-alphanumeric
run (in which case the run's hyphen was already emitted). -/
def collapseNonAlnumGo (inRun : Bool) : List Char → List Char
  | [] => []
  | c :: cs =>
    if isLowerAlnum c then c :: collapseNonAlnumGo false cs
    else (if inRun then [] else ['-']) ++ collapseNonAlnumGo true cs

/-- Replace every maximal run of characters outside `[a-z0-9]` by a single
hyphen. -/
def collapseNonAlnum (cs : List Char) : List Char := collapseNonAlnumGo false cs

/-- State machine for the regex replace of hyphen runs (two or more hyphens)
by a single hyphen; the flag records whether the previous character was a
hyphen. -/
def collapseHyphensGo (prevHyphen : Bool) : List Char → List Char
  | [] => []
  | c :: cs =>
    if c = '-' then (if prevHyphen then [] else ['-']) ++ collapseHyphensGo true cs
    else c :: collapseHyphensGo false cs

/-- Collapse every run of hyphens into a single hyphen. -/
def collapseHyphens (cs : List Char) : List Char := collapseHyphensGo false cs

/-- Strip one leading and one trailing hyphen: `/(^-|-$)/g → ""`. -/
def stripEdgeHyphens (cs : List Char) : List Char :=
  let cs := if cs.head? = some '-' then cs.tail else cs
  if cs.getLast? = some '-' then cs.dropLast else cs

/--
Function `slugify` from `src/lib/utils/text.ts`: lowercase, Unicode NFD normalisation
with combining-mark stripping (the identity on the ASCII inputs this model
ranges over), trim, replace non-alphanumeric runs with hyphens, collapse
hyphen runs, strip edge hyphens, and truncate to `maxLength` characters.
-/
def slugify (value : String) (maxLength : Nat := 60) : String :=
  let lowered := value.data.map Char.toLower
  let trimmed := (jsTrim (String.mk lowered)).data
  String.mk ((stripEdgeHyphens (collapseHyphens (collapseNonAlnum trimmed))).take maxLength)

/-- Function `normalizeTitle` from `src/lib/utils/text.ts`. -/
def normalizeTitle (value : String) : String :=
  jsTrim (String.mk (value.data.map Char.toLower))

/-- Separator class of `tokenize`: `/[\s,.;:!?/\\|-]+/`. -/
def isTokenSep (c : Char) : Bool :=
  c.isWhitespace || c ∈ [',', '.', ';', ':', '!', '?', '/', '\\', '|', '-']

/-- Function `tokenize` from `src/lib/utils/text.ts`: lowercase, split on separator
runs, drop empty tokens. -/
def tokenize (value : String) : List String :=
  ((tokenRunsGo isTokenSep [] (value.data.map Char.toLower)).map
    (fun cs => jsTrim (String.mk cs))).filter (fun t => !t.data.isEmpty)

/-- Function `uniqueStrings`: drop empty strings, then dedupe keeping first
occurrences (JS `Array.from(new Set(...))` iteration order). -/
def uniqueStrings (values : List String) : List String :=
  (values.filter (fun v => !v.data.isEmpty)).eraseDups

/-! ## Admin form payload (src/lib/types/admin.ts) -/

/-- Structure `AdminMetaItem`. -/
structure AdminMetaItem where
  label : String
  value : String
  deriving Repr, DecidableEq

/-- Structure `AdminGalleryItem` (the optional `assetId` string is modelled as an
optional numeric id). -/
structure AdminGalleryItem where
  assetId : Option Nat := none
  src : String
  caption : String
  deriving Repr, DecidableEq

/-- Structure `AdminProjectFormPayload`. -/
structure AdminProjectFormPayload where
  slug : String
  title : String
  category : String
  location : String
  year : String
  heroImage : String
  heroAssetId : Option Nat := none
  heroCaption : String
  excerpt : String
  description : List String
  meta : List AdminMetaItem
  services : List String
  collaborators : List String
  gallery : List AdminGalleryItem
  deriving Repr, DecidableEq

/-! ## Validator (validateAdminPayload, projectService.ts lines 294-391)

Each `if`/`else if` group of the source pushes messages onto one shared
`errors` array; the groups below return the messages each block pushes, and
`validationErrors` appends them in source order. -/

/-- JS falsiness of `s.trim()`: true when the string is empty or whitespace. -/
def isBlank (s : String) : Bool := jsTrim s = ""

/-- Title block. -/
def titleErrors (p : AdminProjectFormPayload) : List String :=
  if isBlank p.title then ["Title is required"]
  else if p.title.length > 120 then ["Title max length is 120 characters"]
  else []

/-- The regex test `/^[a-z0-9-]+$/.test(slug)`. -/
def slugFormatOk (s : String) : Bool :=
  !s.data.isEmpty && s.data.all (fun c => isLowerAlnum c || c = '-')

/-- Slug block. -/
def slugErrors (p : AdminProjectFormPayload) : List String :=
  if isBlank p.slug then ["Slug is required"]
  else if !slugFormatOk p.slug then ["Slug must use lowercase letters, numbers, and hyphen"]
  else if p.slug.length > 60 then ["Slug max length is 60 characters"]
  else []

/-- Category block. -/
def categoryErrors (p : AdminProjectFormPayload) : List String :=
  if isBlank p.category then ["Category is required"] else []

/-- Location block. -/
def locationErrors (p : AdminProjectFormPayload) : List String :=
  if isBlank p.location then ["Location is required"] else []

/-- ASCII digit. -/
def isDigitChar (c : Char) : Bool := 48 ≤ c.toNat && c.toNat ≤ 57

/-- The regex test `/^(19|20|21)\d{2}(-\d{2})?$/.test(year)`. -/
def yearFormatOk (s : String) : Bool :=
  match s.data with
  | c1 :: c2 :: c3 :: c4 :: rest =>
    ((c1 = '1' && c2 = '9') || (c1 = '2' && (c2 = '0' || c2 = '1'))) &&
    isDigitChar c3 && isDigitChar c4 &&
    (match rest with
     | [] => true
     | [h, d1, d2] => h = '-' && isDigitChar d1 && isDigitChar d2
     | _ => false)
  | _ => false

/-- Year block (the regex is tested on `year.trim()`). -/
def yearErrors (p : AdminProjectFormPayload) : List String :=
  if isBlank p.year then ["Year is required"]
  else if !yearFormatOk (jsTrim p.year) then ["Year must match YYYY or YYYY-YY"]
  else []

/-- Hero block: strict mode (`!allowIncompleteMedia`) requires hero image and
caption; both modes cap the caption at 140 characters. -/
def heroErrors (p : AdminProjectFormPayload) (allowIncompleteMedia : Bool) : List String :=
  if !allowIncompleteMedia then
    (if isBlank p.heroImage then ["Hero image URL is required"] else []) ++
    (if isBlank p.heroCaption then ["Hero caption is required"]
     else if p.heroCaption.length > 140 then ["Hero caption max length is 140 characters"]
     else [])
  else if p.heroCaption.length > 140 then ["Hero caption max length is 140 characters"]
  else []

/-- Excerpt block. -/
def excerptErrors (p : AdminProjectFormPayload) : List String :=
  if isBlank p.excerpt then ["Excerpt is required"]
  else if p.excerpt.length > 360 then ["Excerpt max length is 360 characters"]
  else []

/-- Description block. -/
def descriptionErrors (p : AdminProjectFormPayload) : List String :=
  if p.description.length < 2 then ["Provide at least two description paragraphs"]
  else if p.description.any (fun par => (jsTrim par).length < 80) then
    ["Each description paragraph must be at least 80 characters"]
  else []

/-- The normalized meta labels `meta.map(item => item.label.trim().toLowerCase())`. -/
def metaLabels (p : AdminProjectFormPayload) : List String :=
  p.meta.map (fun item => String.mk ((jsTrim item.label).data.map Char.toLower))

/-- Test `labels.some((label, idx) => label && labels.indexOf(label) !== idx)`. -/
def hasDuplicateLabel (labels : List String) : Bool :=
  labels.enum.any (fun pair => pair.2 ≠ "" && labels.indexOf pair.2 ≠ pair.1)

/-- Meta block. -/
def metaErrors (p : AdminProjectFormPayload) : List String :=
  if p.meta.length < 3 then ["Meta list requires at least three items"]
  else
    (if hasDuplicateLabel (metaLabels p) then ["Meta labels must be unique"] else []) ++
    (if p.meta.any (fun item => isBlank item.label || isBlank item.value) then
      ["Meta items require label and value"]
     else [])

/-- Services block. -/
def servicesErrors (p : AdminProjectFormPayload) : List String :=
  if p.services.isEmpty then ["Include at least one service"] else []

/-- Collaborators block. -/
def collaboratorsErrors (p : AdminProjectFormPayload) : List String :=
  if p.collaborators.isEmpty then ["Include at least one collaborator"] else []

/-- Gallery block: strict mode requires 3–15 entries each with image URL and
caption; loose mode only caps the gallery at 15. -/
def galleryErrors (p : AdminProjectFormPayload) (allowIncompleteMedia : Bool) : List String :=
  if !allowIncompleteMedia then
    if p.gallery.length < 3 then ["Gallery requires at least three images"]
    else if p.gallery.length > 15 then ["Gallery can include up to fifteen images"]
    else if p.gallery.any (fun item => isBlank item.src || isBlank item.caption) then
      ["Gallery entries require image URL and caption"]
    else []
  else if p.gallery.length > 15 then ["Gallery can include up to fifteen images"]
  else []

/-- The full `errors` array accumulated by `validateAdminPayload`, in source
push order. -/
def validationErrors (p : AdminProjectFormPayload) (allowIncompleteMedia : Bool) : List String :=
  titleErrors p ++ slugErrors p ++ categoryErrors p ++ locationErrors p ++
  yearErrors p ++ heroErrors p allowIncompleteMedia ++ excerptErrors p ++
  descriptionErrors p ++ metaErrors p ++ servicesErrors p ++
  collaboratorsErrors p ++ galleryErrors p allowIncompleteMedia

/-- Function `validateAdminPayload`: throws a `ProjectValidationError` carrying the
collected messages when any check failed (`.error details`), otherwise
returns normally. -/
def validateAdminPayload (p : AdminProjectFormPayload) (allowIncompleteMedia : Bool) :
    Except (List String) Unit :=
  let errors := validationErrors p allowIncompleteMedia
  if errors.isEmpty then .ok () else .error errors

/-! ## Declarative rule list for the validator

The specification describes the validator as a list of independent rules
whose violations are all collected.  `adminValidationRules` states each
rule's firing condition as a standalone predicate (making the `else if`
context of the source explicit); the theorems relate `validationErrors` to a
filter over this list. -/

/-- One validation rule: a firing condition and the message it contributes. -/
structure ValidationRule where
  check : AdminProjectFormPayload → Bool
  message : String

/-- Declarative rules of the title block. -/
def titleRules : List ValidationRule :=
  [⟨fun p => isBlank p.title, "Title is required"⟩,
   ⟨fun p => !isBlank p.title && p.title.length > 120, "Title max length is 120 characters"⟩]

/-- Declarative rules of the slug block. -/
def slugRules : List ValidationRule :=
  [⟨fun p => isBlank p.slug, "Slug is required"⟩,
   ⟨fun p => !isBlank p.slug && !slugFormatOk p.slug,
    "Slug must use lowercase letters, numbers, and hyphen"⟩,
   ⟨fun p => !isBlank p.slug && slugFormatOk p.slug && p.slug.length > 60,
    "Slug max length is 60 characters"⟩]

/-- Declarative rule of the category block. -/
def categoryRulesD : List ValidationRule :=
  [⟨fun p => isBlank p.category, "Category is required"⟩]

/-- Declarative rule of the location block. -/
def locationRulesD : List ValidationRule :=
  [⟨fun p => isBlank p.location, "Location is required"⟩]

/-- Declarative rules of the year block. -/
def yearRules : List ValidationRule :=
  [⟨fun p => isBlank p.year, "Year is required"⟩,
   ⟨fun p => !isBlank p.year && !yearFormatOk (jsTrim p.year), "Year must match YYYY or YYYY-YY"⟩]

/-- Declarative rules of the hero block, parameterized by mode. -/
def heroRules (allowIncompleteMedia : Bool) : List ValidationRule :=
  [⟨fun p => !allowIncompleteMedia && isBlank p.heroImage, "Hero image URL is required"⟩,
   ⟨fun p => !allowIncompleteMedia && isBlank p.heroCaption, "Hero caption is required"⟩,
   ⟨fun p => (allowIncompleteMedia || !isBlank p.heroCaption) && p.heroCaption.length > 140,
    "Hero caption max length is 140 characters"⟩]

/-- Declarative rules of the excerpt block. -/
def excerptRules : List ValidationRule :=
  [⟨fun p => isBlank p.excerpt, "Excerpt is required"⟩,
   ⟨fun p => !isBlank p.excerpt && p.excerpt.length > 360, "Excerpt max length is 360 characters"⟩]

/-- Declarative rules of the description block. -/
def descriptionRules : List ValidationRule :=
  [⟨fun p => p.description.length < 2, "Provide at least two description paragraphs"⟩,
   ⟨fun p => !(p.description.length < 2) && p.description.any (fun par => (jsTrim par).length < 80),
    "Each description paragraph must be at least 80 characters"⟩]

/-- Declarative rules of the meta block. -/
def metaRules : List ValidationRule :=
  [⟨fun p => p.meta.length < 3, "Meta list requires at least three items"⟩,
   ⟨fun p => !(p.meta.length < 3) && hasDuplicateLabel (metaLabels p), "Meta labels must be unique"⟩,
   ⟨fun p => !(p.meta.length < 3) && p.meta.any (fun item => isBlank item.label || isBlank item.value),
    "Meta items require label and value"⟩]

/-- Declarative rule of the services block. -/
def servicesRulesD : List ValidationRule :=
  [⟨fun p => p.services.isEmpty, "Include at least one service"⟩]

/-- Declarative rule of the collaborators block. -/
def collaboratorsRulesD : List ValidationRule :=
  [⟨fun p => p.collaborators.isEmpty, "Include at least one collaborator"⟩]

/-- Declarative rules of the gallery block, parameterized by mode. -/
def galleryRules (allowIncompleteMedia : Bool) : List ValidationRule :=
  [⟨fun p => !allowIncompleteMedia && p.gallery.length < 3, "Gallery requires at least three images"⟩,
   ⟨fun p => p.gallery.length > 15, "Gallery can include up to fifteen images"⟩,
   ⟨fun p => !allowIncompleteMedia && !(p.gallery.length < 3) && !(p.gallery.length > 15) &&
      p.gallery.any (fun item => isBlank item.src || isBlank item.caption),
    "Gallery entries require image URL and caption"⟩]

/-- The complete declarative rule list, in source order. -/
def adminValidationRules (allowIncompleteMedia : Bool) : List ValidationRule :=
  titleRules ++ slugRules ++ categoryRulesD ++ locationRulesD ++ yearRules ++
  heroRules allowIncompleteMedia ++ excerptRules ++ descriptionRules ++
  metaRules ++ servicesRulesD ++ collaboratorsRulesD ++ galleryRules allowIncompleteMedia

/-- The messages of all violated rules of the declarative list. -/
def violatedMessages (p : AdminProjectFormPayload) (allowIncompleteMedia : Bool) : List String :=
  ((adminValidationRules allowIncompleteMedia).filter (fun r => r.check p)).map (·.message)

/-! ## Number rendering (JS template interpolation and `toString(36)`) -/

/-- Fuelled little-endian-free decimal digit rendering; `fuel ≥ n` suffices. -/
def decDigitsGo : Nat → Nat → List Char
  | 0, _ => []
  | fuel + 1, n =>
    if n < 10 then [Nat.digitChar n]
    else decDigitsGo fuel (n / 10) ++ [Nat.digitChar (n % 10)]

/-- Decimal rendering of a natural number, the JS interpolation of a number. -/
def natToString (n : Nat) : String := String.mk (decDigitsGo (n + 1) n)

/-- A base-36 digit character, lowercase as produced by JS `toString(36)`. -/
def base36Char (d : Nat) : Char :=
  if d < 10 then Nat.digitChar d else Char.ofNat ('a'.toNat + (d - 10))

/-- Fuelled base-36 digit rendering. -/
def base36DigitsGo : Nat → Nat → List Char
  | 0, _ => []
  | fuel + 1, n =>
    if n < 36 then [base36Char n]
    else base36DigitsGo fuel (n / 36) ++ [base36Char (n % 36)]

/-- JS `n.toString(36)` for a natural number. -/
def natToBase36 (n : Nat) : String := String.mk (base36DigitsGo (n + 1) n)

/-! ## Slug allocator (ensureUniqueSlug, projectService.ts lines 393-414) -/

/-- The candidate tried on loop iteration `i`: the base (or, when the
normalized base is empty, the timestamp placeholder) first, then
`base-1`, `base-2`, and so on. -/
def slugCandidate (base first : String) : Nat → String
  | 0 => first
  | i + 1 => base ++ "-" ++ natToString (i + 1)

/-- The `while (true)` probing loop of `ensureUniqueSlug`, with fuel making
the recursion structural.  `i` is the index of the candidate being tried. -/
def findFreeSlug (cand : Nat → String) (isTaken : String → Bool) : Nat → Nat → Option String
  | _, 0 => none
  | i, fuel + 1 =>
    if isTaken (cand i) then findFreeSlug cand isTaken (i + 1) fuel
    else some (cand i)

/--
Function `ensureUniqueSlug`: `takenSlugs` models the result of
`ProjectModel.exists({slug: candidate, _id: {$ne: ignoreId}})` — the slugs of
every project document (soft-deleted included) other than the ignored one —
and `now` feeds `Date.now().toString(36)` for the empty-base placeholder.
-/
def ensureUniqueSlug (desiredSlug : String) (takenSlugs : List String) (now : Nat)
    (fuel : Nat) : Option String :=
  let base := slugify desiredSlug
  let first := if base.data.isEmpty then "project-" ++ natToBase36 now else base
  findFreeSlug (slugCandidate base first) (fun c => takenSlugs.contains c) 0 fuel

/-! ## Transaction coordinator (runWithTransaction, projectService.ts lines 89-160)

The coordinator is modelled parametrically in the transaction body: `op k` is
the outcome of executing (and, on failure, aborting) the body on attempt `k`,
and `transient` is `isTransientTransactionError`.  The model returns the
outcome propagated to the caller together with the list of backoff delays
slept between attempts; `none` models the final
`Error("Transaction failed after maximum retries")`, reachable only when
`retries = 0`. -/

/-- Constant `MAX_TRANSACTION_RETRIES`. -/
def MAX_TRANSACTION_RETRIES : Nat := 3

/-- Constant `TRANSACTION_RETRY_BASE_DELAY_MS`. -/
def TRANSACTION_RETRY_BASE_DELAY_MS : Nat := 100

/-- The attempt loop of `runWithTransaction`.  On failure the error is
retried exactly when it is transient and a later attempt remains, sleeping
`base * 2 ^ attempt` first; otherwise it propagates. -/
def runTxGo {E T : Type} (op : Nat → Except E T) (transient : E → Bool) (retries : Nat) :
    Nat → Nat → Option (Except E T) × List Nat
  | _, 0 => (none, [])
  | attempt, fuel + 1 =>
    match op attempt with
    | .ok v => (some (.ok v), [])
    | .error e =>
      if attempt < retries - 1 && transient e then
        let delay := TRANSACTION_RETRY_BASE_DELAY_MS * 2 ^ attempt
        let (r, ds) := runTxGo op transient retries (attempt + 1) fuel
        (r, delay :: ds)
      else (some (.error e), [])

/-- Function `runWithTransaction` (retry skeleton). -/
def runWithTransaction {E T : Type} (op : Nat → Except E T) (transient : E → Bool)
    (retries : Nat := MAX_TRANSACTION_RETRIES) : Option (Except E T) × List Nat :=
  runTxGo op transient retries 0 retries

/-- A mongoose driver error as classified by `isTransientTransactionError`:
its labels and its numeric code. -/
structure DriverError where
  errorLabels : List String
  code : Option Int
  deriving Repr, DecidableEq

/-- Function `isTransientTransactionError`: label
`TransientTransactionError` or driver code 112. -/
def isTransientTransactionError (e : DriverError) : Bool :=
  e.errorLabels.contains "TransientTransactionError" || e.code = some 112

/-! ## Media URL resolver (resolveMediaUrl, mediaService.ts lines 197-217) -/

/-- An ASCII letter or digit (the case-insensitive class `[a-z0-9]`,
codepoints 97-122, 65-90 and 48-57). -/
def isAsciiAlnum (c : Char) : Bool :=
  (97 ≤ c.toNat && c.toNat ≤ 122) || (65 ≤ c.toNat && c.toNat ≤ 90) ||
  (48 ≤ c.toNat && c.toNat ≤ 57)

/-- Whether the characters of `s`, lowercased, start with the (lowercase)
pattern `p` — a case-insensitive literal prefix test. -/
def lowerStartsWith (s p : String) : Bool :=
  (s.data.take p.data.length).map Char.toLower = p.data

/-- Whether `cs`, lowercased, ends with the (lowercase) pattern `p`. -/
def lowerEndsWith (cs : List Char) (p : String) : Bool :=
  (cs.map Char.toLower).drop (cs.length - p.data.length) = p.data && p.data.length ≤ cs.length

/-- The test of `ABSOLUTE_URL_REGEX`, the case-insensitive
`(https?:)?` followed by two slashes, anchored at the start. -/
def absoluteUrlTest (s : String) : Bool :=
  lowerStartsWith s "//" || lowerStartsWith s "http://" || lowerStartsWith s "https://"

/-- The capture group of `R2_URL_REGEX`: for a URL of the shape
`https://<host-with-no-slash ending in r2.dev or r2.cloudflarestorage.com>/<key>`,
the maximal nonempty run of non-`?` characters after the first slash. -/
def r2KeyCapture (s : String) : Option String :=
  if lowerStartsWith s "https://" then
    let t := s.data.drop 8
    let host := t.takeWhile (· ≠ '/')
    if lowerEndsWith host "r2.dev" || lowerEndsWith host "r2.cloudflarestorage.com" then
      match t.drop host.length with
      | '/' :: afterSlash =>
        let key := afterSlash.takeWhile (· ≠ '?')
        if key.isEmpty then none else some (String.mk key)
      | _ => none
    else none
  else none

/-- The UTF-8 bytes of a Unicode scalar value. -/
def charUtf8Bytes (c : Char) : List Nat :=
  let n := c.toNat
  if n < 0x80 then [n]
  else if n < 0x800 then [0xC0 + n / 0x40, 0x80 + n % 0x40]
  else if n < 0x10000 then [0xE0 + n / 0x1000, 0x80 + n / 0x40 % 0x40, 0x80 + n % 0x40]
  else [0xF0 + n / 0x40000, 0x80 + n / 0x1000 % 0x40, 0x80 + n / 0x40 % 0x40, 0x80 + n % 0x40]

/-- Value of a hexadecimal digit character, if it is one (48-57 are the
digits, 97-102 the lowercase and 65-70 the uppercase letter range). -/
def hexDigitVal (c : Char) : Option Nat :=
  let n := c.toNat
  if 48 ≤ n ∧ n ≤ 57 then some (n - 48)
  else if 97 ≤ n ∧ n ≤ 102 then some (n - 87)
  else if 65 ≤ n ∧ n ≤ 70 then some (n - 55)
  else none

/-- Percent-decoding to a byte stream: `%XX` contributes the byte `XX` (a
malformed escape is a `URIError`, hence `none`), any other character
contributes its UTF-8 bytes. -/
def percentDecodeBytes : List Char → Option (List Nat)
  | [] => some []
  | c :: rest =>
    if c = '%' then
      match rest with
      | c1 :: c2 :: rest2 =>
        match hexDigitVal c1, hexDigitVal c2 with
        | some h, some l => (percentDecodeBytes rest2).map ((h * 16 + l) :: ·)
        | _, _ => none
      | _ => none
    else (percentDecodeBytes rest).map (charUtf8Bytes c ++ ·)

/-- Whether a byte is a UTF-8 continuation byte `10xxxxxx`. -/
def isUtf8Cont (b : Nat) : Bool := 0x80 ≤ b && b < 0xC0

/-- UTF-8 decoding of a byte stream, rejecting malformed, overlong and
surrogate/out-of-range sequences as JS `decodeURIComponent` does. -/
def utf8Decode : List Nat → Option (List Char)
  | [] => some []
  | b :: rest =>
    if b < 0x80 then (utf8Decode rest).map (Char.ofNat b :: ·)
    else if b < 0xC2 then none
    else if b < 0xE0 then
      match rest with
      | b2 :: rest2 =>
        if isUtf8Cont b2 then
          (utf8Decode rest2).map (Char.ofNat ((b - 0xC0) * 0x40 + (b2 - 0x80)) :: ·)
        else none
      | _ => none
    else if b < 0xF0 then
      match rest with
      | b2 :: b3 :: rest3 =>
        if isUtf8Cont b2 && isUtf8Cont b3 then
          let n := (b - 0xE0) * 0x1000 + (b2 - 0x80) * 0x40 + (b3 - 0x80)
          if n < 0x800 || (0xD800 ≤ n && n < 0xE000) then none
          else (utf8Decode rest3).map (Char.ofNat n :: ·)
        else none
      | _ => none
    else if b < 0xF5 then
      match rest with
      | b2 :: b3 :: b4 :: rest4 =>
        if isUtf8Cont b2 && isUtf8Cont b3 && isUtf8Cont b4 then
          let n := (b - 0xF0) * 0x40000 + (b2 - 0x80) * 0x1000 + (b3 - 0x80) * 0x40 + (b4 - 0x80)
          if n < 0x10000 || n > 0x10FFFF then none
          else (utf8Decode rest4).map (Char.ofNat n :: ·)
        else none
      | _ => none
    else none

/-- JS `decodeURIComponent`, returning `none` where JS throws `URIError`. -/
def decodeURIComponent (s : String) : Option String :=
  (percentDecodeBytes s.data).bind (fun bytes => (utf8Decode bytes).map String.mk)

/-- The characters `encodeURIComponent` leaves unescaped. -/
def isUnescapedInURIComponent (c : Char) : Bool :=
  isAsciiAlnum c || c ∈ ['-', '_', '.', '!', '~', '*', '\'', '(', ')']

/-- An uppercase hexadecimal digit character. -/
def hexUpperChar (d : Nat) : Char :=
  if d < 10 then Nat.digitChar d else Char.ofNat ('A'.toNat + (d - 10))

/-- JS `encodeURIComponent` (total here: Lean strings carry no lone
surrogates, the only inputs on which JS throws). -/
def encodeURIComponent (s : String) : String :=
  String.mk (s.data.flatMap (fun c =>
    if isUnescapedInURIComponent c then [c]
    else (charUtf8Bytes c).flatMap (fun b => ['%', hexUpperChar (b / 16), hexUpperChar (b % 16)])))

/-- JS `String.prototype.startsWith`. -/
def jsStartsWith (s p : String) : Bool :=
  s.data.take p.data.length = p.data

/-- Function `resolveMediaUrl`.  The input `none` models `undefined`/`null`;
`.error ()` models the uncaught `URIError` thrown by `decodeURIComponent` on
a malformed percent-encoded key inside an R2 URL. -/
def resolveMediaUrl : Option String → Except Unit String
  | none => .ok ""
  | some value =>
    if value = "" then .ok ""
    else if jsStartsWith value "/api/" then .ok value
    else if absoluteUrlTest value then
      match r2KeyCapture value with
      | some captured =>
        match decodeURIComponent captured with
        | some key => .ok ("/api/media?key=" ++ encodeURIComponent key)
        | none => .error ()
      | none => .ok value
    else .ok ("/api/media?key=" ++ encodeURIComponent value)

/-! ## Data model (src/lib/models/*)

ObjectIds are numeric; every id is drawn from the store's `nextId` counter.
Actor-attribution always uses the constant system user. -/

/-- Constant `SYSTEM_USER_ID` (the all-zero ObjectId). -/
def SYSTEM_USER_ID : Nat := 0

/-- Project status enum. -/
inductive ProjectStatus where
  | draft
  | published
  | archived
  deriving Repr, DecidableEq

/-- Media kind enum (`MEDIA_KIND`). -/
inductive MediaKind where
  | hero
  | gallery
  deriving Repr, DecidableEq

/-- Hero sub-document. -/
structure Hero where
  assetId : Option Nat := none
  src : String := ""
  width : Nat := 0
  height : Nat := 0
  caption : String := ""
  deriving Repr, DecidableEq

/-- Description-block sub-document (with its own `_id`). -/
structure DescriptionBlock where
  subId : Nat
  body : String
  order : Nat
  deriving Repr, DecidableEq

/-- Meta-item sub-document. -/
structure MetaItem where
  subId : Nat
  label : String
  value : String
  order : Nat
  deriving Repr, DecidableEq

/-- Service-item sub-document. -/
structure ServiceItem where
  subId : Nat
  serviceId : Option Nat := none
  label : String
  order : Nat
  deriving Repr, DecidableEq

/-- Collaborator-item sub-document. -/
structure CollabItem where
  subId : Nat
  collaboratorId : Option Nat := none
  label : String
  order : Nat
  deriving Repr, DecidableEq

/-- Gallery-item sub-document. -/
structure GalleryItem where
  subId : Nat
  assetId : Option Nat := none
  src : String := ""
  caption : String := ""
  order : Nat
  deriving Repr, DecidableEq

/-- A `Project` document (the mutable draft, source of truth). -/
structure Project where
  id : Nat
  slug : String
  title : String
  titleSort : String := ""
  categoryId : Option Nat := none
  categoryLabel : String
  location : String
  yearDisplay : String
  status : ProjectStatus := .draft
  hero : Hero := {}
  excerpt : String := ""
  descriptionBlocks : List DescriptionBlock := []
  meta : List MetaItem := []
  services : List ServiceItem := []
  collaborators : List CollabItem := []
  gallery : List GalleryItem := []
  searchTokens : List String := []
  revision : Nat := 1
  createdBy : Option Nat := none
  updatedBy : Option Nat := none
  publishedBy : Option Nat := none
  publishedAt : Option Nat := none
  deletedAt : Option Nat := none
  createdAt : Nat := 0
  updatedAt : Nat := 0
  deriving Repr, DecidableEq

/-- Snapshot description block (no `_id`). -/
structure SnapBlock where
  body : String
  order : Nat
  deriving Repr, DecidableEq

/-- Snapshot meta row. -/
structure SnapMeta where
  label : String
  value : String
  order : Nat
  deriving Repr, DecidableEq

/-- Snapshot labelled row (service / collaborator). -/
structure SnapLabel where
  label : String
  order : Nat
  deriving Repr, DecidableEq

/-- Snapshot gallery item. -/
structure SnapGallery where
  assetId : Option Nat := none
  src : String := ""
  caption : String := ""
  order : Nat
  deriving Repr, DecidableEq

/-- A `PublishedProjectSnapshot` document, keyed by `projectId`. -/
structure PublishedProjectSnapshot where
  projectId : Nat
  slug : String
  title : String
  categoryLabel : String
  location : String
  yearDisplay : String
  hero : Hero := {}
  excerpt : String := ""
  descriptionBlocks : List SnapBlock := []
  meta : List SnapMeta := []
  services : List SnapLabel := []
  collaborators : List SnapLabel := []
  gallery : List SnapGallery := []
  publishedAt : Nat := 0
  syncedAt : Nat := 0
  deriving Repr, DecidableEq

/-- The `source` enum of the `projectVersions` schema. -/
def projectVersionSources : List String := ["manual-save", "publish", "unpublish"]

/-- A `ProjectVersion` row (append-only). -/
structure ProjectVersionRow where
  projectId : Nat
  version : Nat
  status : ProjectStatus
  source : String
  payload : Project
  createdBy : Option Nat := none
  published : Bool := false
  deriving Repr, DecidableEq

/-- The `action` enum of the `projectHistory` schema
(src/lib/models/projectHistory.ts): note it has no `unpublished` member. -/
def projectHistoryActions : List String :=
  ["created", "duplicated", "saved", "published", "deleted"]

/-- A `ProjectHistoryEntry` row (append-only). -/
structure ProjectHistoryRow where
  projectId : Nat
  action : String
  actorId : Option Nat := none
  fromStatus : Option ProjectStatus := none
  toStatus : Option ProjectStatus := none
  snapshotVersion : Option Nat := none
  deriving Repr, DecidableEq

/-- A `MediaAsset` document. -/
structure MediaAsset where
  id : Nat
  storageKey : String
  publicUrl : String
  kind : MediaKind
  width : Nat := 0
  height : Nat := 0
  format : String := "jpg"
  fileSizeBytes : Nat := 0
  createdBy : Option Nat := none
  deletedAt : Option Nat := none
  deriving Repr, DecidableEq

/-- A `Category` lookup document. -/
structure CategoryDoc where
  id : Nat
  name : String
  slug : String
  deriving Repr, DecidableEq

/-- A `Service` lookup document. -/
structure ServiceDoc where
  id : Nat
  label : String
  slug : String
  deriving Repr, DecidableEq

/-- A `Collaborator` lookup document. -/
structure CollaboratorDoc where
  id : Nat
  displayName : String
  organization : String
  deriving Repr, DecidableEq

/-- The primary store (all mongo collections) plus the blob store's keys and
a fresh-ObjectId counter. -/
structure Store where
  nextId : Nat := 1
  projects : List Project := []
  snapshots : List PublishedProjectSnapshot := []
  versions : List ProjectVersionRow := []
  history : List ProjectHistoryRow := []
  assets : List MediaAsset := []
  categories : List CategoryDoc := []
  serviceDocs : List ServiceDoc := []
  collaboratorDocs : List CollaboratorDoc := []
  blobs : List String := []
  deriving Repr, DecidableEq

/-- Errors surfaced by the service (the transaction aborts and the
pre-transaction store is kept). -/
inductive AdminError where
  | validation (details : List String)
  | notFound
  | schemaValidation (msg : String)
  | fuelExhausted
  deriving Repr, DecidableEq

/-- Draw a fresh ObjectId. -/
def freshId (s : Store) : Nat × Store :=
  (s.nextId, { s with nextId := s.nextId + 1 })

/-- Replace the first list element satisfying `p` by `f` of it. -/
def updateFirst (p : α → Bool) (f : α → α) : List α → List α
  | [] => []
  | x :: xs => if p x then f x :: xs else x :: updateFirst p f xs

/-- Remove the first list element satisfying `p` (mongo `deleteOne`). -/
def removeFirst (p : α → Bool) : List α → List α
  | [] => []
  | x :: xs => if p x then xs else x :: removeFirst p xs

/-- Ordered insert used to model a stable sort: the new element keeps its
place before later elements of equal `order`. -/
def insertByOrder (getOrder : α → Nat) (x : α) : List α → List α
  | [] => [x]
  | y :: ys => if getOrder y < getOrder x then y :: insertByOrder getOrder x ys else x :: y :: ys

/-- Function `sortByOrder`: stable sort of sub-documents by their `order`
field (JS `Array.prototype.sort` with an `order` comparator is stable). -/
def sortByOrder (getOrder : α → Nat) (items : List α) : List α :=
  items.foldr (insertByOrder getOrder) []

/-! ## Media service (src/lib/server/mediaService.ts) -/

/-- Function `deleteMediaAssetsByIds`, the post-commit garbage collector.
For each requested id, the asset is deleted (row and blob) only when its
storage key is nonempty and no `Project` document — the query has no
`deletedAt` filter and consults no other collection — references it from
`hero.assetId` or `gallery.assetId`. -/
def deleteMediaAssetsByIds (assetIds : List Nat) (s : Store) : Store :=
  if assetIds.isEmpty then s
  else
    let assets := s.assets.filter (fun a => assetIds.contains a.id)
    if assets.isEmpty then s
    else
      let stillInUse := fun (aid : Nat) =>
        s.projects.any (fun p =>
          p.hero.assetId = some aid || p.gallery.any (fun g => g.assetId = some aid))
      let deletable := assets.filter (fun a => a.storageKey ≠ "" && !stillInUse a.id)
      if deletable.isEmpty then s
      else
        { s with
          assets := s.assets.filter (fun a => !(deletable.map (·.id)).contains a.id)
          blobs := s.blobs.filter (fun k => !(deletable.map (·.storageKey)).contains k) }

/-! ## Reference resolvers and asset binder (projectService.ts lines 163-292, 541-561) -/

/-- The regex search of `mediaFormatFromUrl`: the first `.` followed by a
maximal alphanumeric run ending at `?` or at the end of the string. -/
def findUrlExt : List Char → Option (List Char)
  | [] => none
  | c :: rest =>
    if c = '.' then
      let run := rest.takeWhile isAsciiAlnum
      if run.isEmpty then findUrlExt rest
      else
        match rest.drop run.length with
        | [] => some run
        | '?' :: _ => some run
        | _ => findUrlExt rest
    else findUrlExt rest

/-- Function `mediaFormatFromUrl`. -/
def mediaFormatFromUrl (url : String) : String :=
  match findUrlExt url.data with
  | some run => String.mk (run.map Char.toLower)
  | none => "jpg"

/-- Function `deriveStorageKey`: for an `http(s)` URL, the pathname without
its leading slash (falling back to the lowercased hostname when the path is
empty); any string `new URL` rejects is returned unchanged.  (The model
parses only the `http(s)` URLs the client submits.) -/
def deriveStorageKey (url : String) : String :=
  let parse := fun (t : List Char) =>
    let host := t.takeWhile (· ≠ '/')
    let path := (t.drop host.length).drop 1 |>.takeWhile (fun c => c ≠ '?' && c ≠ '#')
    if path.isEmpty then String.mk (host.map Char.toLower) else String.mk path
  if lowerStartsWith url "http://" then parse (url.data.drop 7)
  else if lowerStartsWith url "https://" then parse (url.data.drop 8)
  else url

/-- Constant `MEDIA_DIMENSIONS`. -/
def MEDIA_DIMENSIONS (kind : MediaKind) : Nat × Nat :=
  match kind with
  | .hero => (3200, 2400)
  | .gallery => (2400, 1600)

/-- Function `ensureMediaAsset`: skip blank URLs, reuse the asset with the
same `publicUrl`, otherwise create one (`caption` is accepted and unused, as
in the source). -/
def ensureMediaAsset (url : String) (kind : MediaKind) (_caption : String)
    (width height : Nat) (s : Store) : Option MediaAsset × Store :=
  if isBlank url then (none, s)
  else
    match s.assets.find? (fun a => a.publicUrl = url) with
    | some existing => (some existing, s)
    | none =>
      let (aid, s₁) := freshId s
      let created : MediaAsset :=
        { id := aid, storageKey := deriveStorageKey url, publicUrl := url, kind := kind,
          width := width, height := height, format := mediaFormatFromUrl url,
          fileSizeBytes := 0, createdBy := some SYSTEM_USER_ID }
      (some created, { s₁ with assets := s₁.assets ++ [created] })

/-- The character class of a mongoose slug `match` validator, `[a-z0-9-]`. -/
def isSlugChar (c : Char) : Bool := isLowerAlnum c || c = '-'

/-- The mongoose validator `match: /^[a-z0-9-]{lo,hi}$/` (with `required`,
which rejects the empty string and is subsumed by `lo ≥ 1`). -/
def slugMatchOk (slug : String) (lo hi : Nat) : Bool :=
  lo ≤ slug.length && slug.length ≤ hi && slug.data.all isSlugChar

/-- Function `ensureCategory` (ensure-by-slug).  A missing category goes
through `CategoryModel.create`, which runs the Category schema validators
(src/unnamed/part_013): `name` required with `maxlength: 80` after `trim`,
and `slug` matching `/^[a-z0-9-]{3,60}$/`; a violation throws a mongoose
`ValidationError` inside the session and aborts the transaction. -/
def ensureCategory (label : String) (s : Store) : Except AdminError (Nat × Store) :=
  let slug := slugify label 60
  match s.categories.find? (fun c => c.slug = slug) with
  | some existing => .ok (existing.id, s)
  | none =>
    if jsTrim label ≠ "" && (jsTrim label).length ≤ 80 && slugMatchOk slug 3 60 then
      let (cid, s₁) := freshId s
      .ok (cid, { s₁ with categories :=
        s₁.categories ++ [{ id := cid, name := jsTrim label, slug := slug }] })
    else .error (.schemaValidation ("Category validation failed: " ++ label))

/-- Function `ensureService` (ensure-by-slug of the trimmed label).  A
missing service goes through `ServiceModel.create`, which runs the Service
schema validators (src/lib/models/service.ts): `label` required with
`maxlength: 120` after `trim`, and `slug` matching `/^[a-z0-9-]{3,80}$/`; a
violation aborts the transaction. -/
def ensureService (label : String) (s : Store) : Except AdminError (Nat × Store) :=
  let cleaned := jsTrim label
  let slug := slugify cleaned 80
  match s.serviceDocs.find? (fun c => c.slug = slug) with
  | some existing => .ok (existing.id, s)
  | none =>
    if cleaned ≠ "" && cleaned.length ≤ 120 && slugMatchOk slug 3 80 then
      let (sid, s₁) := freshId s
      .ok (sid, { s₁ with serviceDocs :=
        s₁.serviceDocs ++ [{ id := sid, label := cleaned, slug := slug }] })
    else .error (.schemaValidation ("Service validation failed: " ++ label))

/-- Function `parseCollaboratorLabel`: split on the em dash, best effort. -/
def parseCollaboratorLabel (label : String) : String × String :=
  let parts := (splitOnChar '—' label).map jsTrim
  (parts.headD "", (parts.drop 1).headD "")

/-- Function `ensureCollaborator` (ensure by display name and organization).
A missing collaborator goes through `CollaboratorModel.create`, which runs
the Collaborator schema validators (src/unnamed/part_014): `displayName`
required with `maxlength: 160` after `trim`, `organization` with
`maxlength: 160`; a violation aborts the transaction. -/
def ensureCollaborator (label : String) (s : Store) : Except AdminError (Nat × Store) :=
  let (displayName, organization) := parseCollaboratorLabel label
  match s.collaboratorDocs.find? (fun c =>
      c.displayName = displayName && c.organization = organization) with
  | some existing => .ok (existing.id, s)
  | none =>
    if displayName ≠ "" && displayName.length ≤ 160 && organization.length ≤ 160 then
      let (cid, s₁) := freshId s
      .ok (cid, { s₁ with collaboratorDocs :=
        s₁.collaboratorDocs ++ [{ id := cid, displayName := displayName, organization := organization }] })
    else .error (.schemaValidation ("Collaborator validation failed: " ++ label))

/-- Function `findOrCreateMediaAsset`: reuse the asset with a submitted id
when it exists, otherwise bind by URL. -/
def findOrCreateMediaAsset (assetId : Option Nat) (fallbackUrl : String) (kind : MediaKind)
    (caption : String) (width height : Nat) (s : Store) : Option MediaAsset × Store :=
  match assetId with
  | some aid =>
    match s.assets.find? (fun a => a.id = aid) with
    | some existing => (some existing, s)
    | none => ensureMediaAsset fallbackUrl kind caption width height s
  | none => ensureMediaAsset fallbackUrl kind caption width height s

/-- Function `buildSearchTokens`. -/
def buildSearchTokens (p : AdminProjectFormPayload) : List String :=
  uniqueStrings
    (tokenize p.title ++ tokenize p.category ++ tokenize p.location ++ tokenize p.year ++
     p.services.flatMap tokenize ++ p.collaborators.flatMap tokenize ++
     p.meta.flatMap (fun item => tokenize item.value) ++ tokenize p.excerpt)

/-- The content block assembled by `buildContentFromPayload`. -/
structure ProjectContent where
  categoryId : Nat
  hero : Hero
  descriptionBlocks : List DescriptionBlock
  meta : List MetaItem
  services : List ServiceItem
  collaborators : List CollabItem
  gallery : List GalleryItem
  searchTokens : List String
  deriving Repr, DecidableEq

/-- Allocate fresh sub-document ids for an indexed list. -/
def allocIndexed (mk : Nat → Nat → α → β) (items : List α) (s : Store) : List β × Store :=
  items.foldl
    (fun (acc : List β × Store) item =>
      let (subId, s') := freshId acc.2
      (acc.1 ++ [mk subId acc.1.length item], s'))
    ([], s)

/-- The gallery asset-binding pass of `buildContentFromPayload` (the
`Promise.all` over `findOrCreateMediaAsset`, sequenced). -/
def bindGalleryAssets (items : List AdminGalleryItem) (s : Store) :
    List (Option MediaAsset) × Store :=
  items.foldl
    (fun (acc : List (Option MediaAsset) × Store) item =>
      let (a, s') := findOrCreateMediaAsset item.assetId item.src .gallery item.caption
        (MEDIA_DIMENSIONS .gallery).1 (MEDIA_DIMENSIONS .gallery).2 acc.2
      (acc.1 ++ [a], s'))
    ([], s)

/-- Worker of the service-item pass: resolve each label in sequence (the
first `ensureService` rejection aborts, as a rejected `Promise.all` does)
and give the sub-document `order := index`. -/
def buildServiceItemsGo (labels : List String) (acc : List ServiceItem) (s : Store) :
    Except AdminError (List ServiceItem × Store) :=
  match labels with
  | [] => .ok (acc, s)
  | label :: rest =>
    match ensureService label s with
    | .error e => .error e
    | .ok (serviceId, s') =>
      let (subId, s'') := freshId s'
      buildServiceItemsGo rest
        (acc ++ [{ subId := subId, serviceId := some serviceId, label := label,
                   order := acc.length }]) s''

/-- The service-item pass of `buildContentFromPayload`. -/
def buildServiceItems (labels : List String) (s : Store) :
    Except AdminError (List ServiceItem × Store) :=
  buildServiceItemsGo labels [] s

/-- Worker of the collaborator-item pass of `buildContentFromPayload`. -/
def buildCollabItemsGo (labels : List String) (acc : List CollabItem) (s : Store) :
    Except AdminError (List CollabItem × Store) :=
  match labels with
  | [] => .ok (acc, s)
  | label :: rest =>
    match ensureCollaborator label s with
    | .error e => .error e
    | .ok (collaboratorId, s') =>
      let (subId, s'') := freshId s'
      buildCollabItemsGo rest
        (acc ++ [{ subId := subId, collaboratorId := some collaboratorId, label := label,
                   order := acc.length }]) s''

/-- The collaborator-item pass of `buildContentFromPayload`. -/
def buildCollabItems (labels : List String) (s : Store) :
    Except AdminError (List CollabItem × Store) :=
  buildCollabItemsGo labels [] s

/-- Function `buildContentFromPayload` (projectService.ts lines 563-656):
resolves the category, binds hero and gallery assets, and rebuilds every
ordered sub-list with `order := index`; a schema-validation failure inside
`ensureCategory`, `ensureService` or `ensureCollaborator` aborts the
transaction. -/
def buildContentFromPayload (payload : AdminProjectFormPayload) (s : Store) :
    Except AdminError (ProjectContent × Store) :=
  match ensureCategory payload.category s with
  | .error e => .error e
  | .ok (categoryId, s₁) =>
  let (heroAsset, s₂) := findOrCreateMediaAsset payload.heroAssetId payload.heroImage .hero
    payload.heroCaption (MEDIA_DIMENSIONS .hero).1 (MEDIA_DIMENSIONS .hero).2 s₁
  let (galleryAssets, s₃) := bindGalleryAssets payload.gallery s₂
  let (descriptionBlocks, s₄) := allocIndexed
    (fun subId idx body => DescriptionBlock.mk subId (jsTrim body) idx) payload.description s₃
  let (meta, s₅) := allocIndexed
    (fun subId idx (item : AdminMetaItem) =>
      MetaItem.mk subId (jsTrim item.label) (jsTrim item.value) idx) payload.meta s₄
  match buildServiceItems payload.services s₅ with
  | .error e => .error e
  | .ok (services, s₆) =>
  match buildCollabItems payload.collaborators s₆ with
  | .error e => .error e
  | .ok (collaborators, s₇) =>
  let (gallery, s₈) := allocIndexed
    (fun subId idx (pair : AdminGalleryItem × Option MediaAsset) =>
      GalleryItem.mk subId (pair.2.map (·.id))
        ((pair.2.map (·.storageKey)).getD pair.1.src) pair.1.caption idx)
    (payload.gallery.zip galleryAssets) s₇
  .ok ({ categoryId := categoryId
         hero :=
           { assetId := heroAsset.map (·.id)
             src := (heroAsset.map (·.storageKey)).getD payload.heroImage
             width := (heroAsset.map (·.width)).getD 0
             height := (heroAsset.map (·.height)).getD 0
             caption := payload.heroCaption }
         descriptionBlocks := descriptionBlocks
         meta := meta
         services := services
         collaborators := collaborators
         gallery := gallery
         searchTokens := buildSearchTokens payload }, s₈)

/-! ## Version and history recorder (projectService.ts lines 659-706) -/

/-- Function `createHistoryEntry`: the insert is validated against the
`projectHistory` schema's `action` enum. -/
def createHistoryEntry (s : Store) (projectId : Nat) (action : String)
    (fromStatus toStatus : Option ProjectStatus) (snapshotVersion : Option Nat) :
    Except AdminError Store :=
  if projectHistoryActions.contains action then
    .ok { s with history := s.history ++
      [{ projectId := projectId, action := action, actorId := some SYSTEM_USER_ID,
         fromStatus := fromStatus, toStatus := toStatus, snapshotVersion := snapshotVersion }] }
  else .error (.schemaValidation ("projectHistory action not in enum: " ++ action))

/-- Function `recordVersion`: appends one `ProjectVersion` row carrying the
project's (post-mutation) revision, validated against the `source` enum. -/
def recordVersion (s : Store) (project : Project) (source : String) (published : Bool) :
    Except AdminError Store :=
  if projectVersionSources.contains source then
    .ok { s with versions := s.versions ++
      [{ projectId := project.id, version := project.revision, status := project.status,
         source := source, payload := project, createdBy := some SYSTEM_USER_ID,
         published := published }] }
  else .error (.schemaValidation ("projectVersion source not in enum: " ++ source))

/-! ## Publishing state machine (projectService.ts lines 480-1045) -/

/-- Function `projectToPublishedPayload`: the denormalized snapshot body,
with every sub-list sorted by `order`. -/
def projectToPublishedPayload (project : Project) (now : Nat) : PublishedProjectSnapshot :=
  { projectId := project.id
    slug := project.slug
    title := project.title
    categoryLabel := project.categoryLabel
    location := project.location
    yearDisplay := project.yearDisplay
    hero := project.hero
    excerpt := project.excerpt
    descriptionBlocks := (sortByOrder (·.order) project.descriptionBlocks).map
      (fun b => { body := b.body, order := b.order })
    meta := (sortByOrder (·.order) project.meta).map
      (fun m => { label := m.label, value := m.value, order := m.order })
    services := (sortByOrder (·.order) project.services).map
      (fun x => { label := x.label, order := x.order })
    collaborators := (sortByOrder (·.order) project.collaborators).map
      (fun x => { label := x.label, order := x.order })
    gallery := (sortByOrder (·.order) project.gallery).map
      (fun g => { assetId := g.assetId, src := g.src, caption := g.caption, order := g.order })
    publishedAt := project.publishedAt.getD now
    syncedAt := now }

/-- Function `upsertPublishedProject`: `findOneAndUpdate` keyed by
`projectId` with `upsert: true`. -/
def upsertPublishedProject (project : Project) (now : Nat) (s : Store) : Store :=
  let payload := projectToPublishedPayload project now
  if s.snapshots.any (fun sn => sn.projectId = project.id) then
    { s with snapshots := updateFirst (fun sn => sn.projectId = project.id) (fun _ => payload) s.snapshots }
  else
    { s with snapshots := s.snapshots ++ [payload] }

/-- Function `collectProjectAssetIds`. -/
def collectProjectAssetIds (project : Project) : Option Nat × List Nat :=
  (project.hero.assetId, project.gallery.filterMap (·.assetId))

/-- Function `diffAssetIds`: the asset ids referenced before but not after. -/
def diffAssetIds (previous next : Option Nat × List Nat) : List Nat :=
  (match previous.1 with
   | some h => if previous.1 ≠ next.1 then [h] else []
   | none => []) ++
  previous.2.filter (fun aid => !next.2.contains aid)

/-- Lookup of `findOne({_id: projectId, deletedAt: null})`. -/
def findActiveProject (s : Store) (projectId : Nat) : Option Project :=
  s.projects.find? (fun p => p.id = projectId && p.deletedAt = none)

/-- The `$set`/`$inc` update document applied by `persistProjectFromPayload`. -/
def applyPersistUpdate (existing : Project) (payload : AdminProjectFormPayload)
    (slug : String) (content : ProjectContent) (status : ProjectStatus) (now : Nat) : Project :=
  { existing with
    slug := slug
    title := payload.title
    titleSort := normalizeTitle payload.title
    categoryId := some content.categoryId
    categoryLabel := payload.category
    location := payload.location
    yearDisplay := payload.year
    hero := content.hero
    excerpt := payload.excerpt
    descriptionBlocks := content.descriptionBlocks
    meta := content.meta
    services := content.services
    collaborators := content.collaborators
    gallery := content.gallery
    searchTokens := content.searchTokens
    status := status
    updatedAt := now
    updatedBy := some SYSTEM_USER_ID
    publishedAt := if status = .published then some now else existing.publishedAt
    publishedBy := if status = .published then some SYSTEM_USER_ID else existing.publishedBy
    revision := existing.revision + 1 }

/-- Schema validation of the `findOneAndUpdate` with `runValidators: true`
(projectService.ts line 789): the `projectSchema` constraints
(src/unnamed/part_015) on the fields the `$set` writes — slug `maxlength:
60` with `match: /^[a-z0-9-]+$/`, title `maxlength: 120`, categoryLabel
`maxlength: 80`, location `maxlength: 160`, yearDisplay `match:
/^(19|20|21)\d{2}(-\d{2})?$/` on the raw value, hero caption `maxlength:
140`, excerpt `maxlength: 360`, description bodies `minlength: 80` with at
least 2 blocks, meta labels `maxlength: 60` and values `maxlength: 160`
with at least 3 rows, service labels `maxlength: 120` with at least 1,
collaborator labels `maxlength: 200` with at least 1, gallery captions
`maxlength: 240` with at most 15 entries, and `required` (non-empty) on the
mandatory string fields.  A violation throws a mongoose `ValidationError`
and aborts the transaction. -/
def projectUpdateSchemaOk (p : Project) : Bool :=
  p.slug ≠ "" && p.slug.length ≤ 60 && p.slug.data.all isSlugChar &&
  p.title ≠ "" && p.title.length ≤ 120 &&
  p.categoryLabel ≠ "" && p.categoryLabel.length ≤ 80 &&
  p.location ≠ "" && p.location.length ≤ 160 &&
  yearFormatOk p.yearDisplay &&
  p.hero.caption.length ≤ 140 &&
  p.excerpt ≠ "" && p.excerpt.length ≤ 360 &&
  2 ≤ p.descriptionBlocks.length &&
  p.descriptionBlocks.all (fun b => 80 ≤ b.body.length) &&
  3 ≤ p.meta.length &&
  p.meta.all (fun m => m.label ≠ "" && m.label.length ≤ 60 &&
    m.value ≠ "" && m.value.length ≤ 160) &&
  1 ≤ p.services.length &&
  p.services.all (fun x => x.label ≠ "" && x.label.length ≤ 120) &&
  1 ≤ p.collaborators.length &&
  p.collaborators.all (fun x => x.label ≠ "" && x.label.length ≤ 200) &&
  p.gallery.length ≤ 15 &&
  p.gallery.all (fun g => g.caption.length ≤ 240)

/-- Function `persistProjectFromPayload` (projectService.ts lines 736-830),
the shared save/publish path: validate (loose unless publishing), load the
live project, allocate the slug, rebuild content (which may abort on a
lookup-schema violation), apply the update with a revision `$inc` under
`runValidators: true`, append history and version rows, upsert the snapshot
when publishing, and finally run the post-commit asset GC on the removed
ids. -/
def persistProjectFromPayload (s : Store) (projectId : Nat)
    (payload : AdminProjectFormPayload) (status : ProjectStatus) (now : Nat) :
    Except AdminError (Store × Project) :=
  match validateAdminPayload payload (!(status = .published)) with
  | .error details => .error (.validation details)
  | .ok () =>
    match findActiveProject s projectId with
    | none => .error .notFound
    | some existing =>
      let takenSlugs := (s.projects.filter (fun p => p.id ≠ projectId)).map (·.slug)
      match ensureUniqueSlug payload.slug takenSlugs now (takenSlugs.length + 1) with
      | none => .error .fuelExhausted
      | some slug =>
        match buildContentFromPayload payload s with
        | .error e => .error e
        | .ok (content, s₁) =>
        let previousAssets := collectProjectAssetIds existing
        let project := applyPersistUpdate existing payload slug content status now
        if projectUpdateSchemaOk project then
          let newProjects :=
            updateFirst (fun p => p.id = projectId && p.deletedAt = none) (fun _ => project)
              s₁.projects
          let s₂ := { s₁ with projects := newProjects }
          let action := if status = .published then "published" else "saved"
          match createHistoryEntry s₂ project.id action (some existing.status) (some status)
              (some project.revision) with
          | .error e => .error e
          | .ok s₃ =>
            match recordVersion s₃ project
                (if status = .published then "publish" else "manual-save")
                (status = .published) with
            | .error e => .error e
            | .ok s₄ =>
              let s₅ := if status = .published then upsertPublishedProject project now s₄ else s₄
              let nextAssets := collectProjectAssetIds project
              let removedAssetIds := diffAssetIds previousAssets nextAssets
              let s₆ := if removedAssetIds.isEmpty then s₅
                        else deleteMediaAssetsByIds removedAssetIds s₅
              .ok (s₆, project)
        else .error (.schemaValidation "Project update failed schema validation")

/-- Function `saveAdminProject`. -/
def saveAdminProject (s : Store) (projectId : Nat) (payload : AdminProjectFormPayload)
    (now : Nat) : Except AdminError (Store × Project) :=
  persistProjectFromPayload s projectId payload .draft now

/-- Function `publishAdminProject`. -/
def publishAdminProject (s : Store) (projectId : Nat) (payload : AdminProjectFormPayload)
    (now : Nat) : Except AdminError (Store × Project) :=
  persistProjectFromPayload s projectId payload .published now

/-- Constant `PLACEHOLDER_PARAGRAPH`. -/
def PLACEHOLDER_PARAGRAPH : String :=
  "Begin the narrative by outlining the project intent, material palette, and experiential goals. Replace this placeholder with at least eighty characters describing the spatial approach."

/-- The placeholder payload assembled by `createAdminProject` (`currentYear`
models `new Date().getFullYear().toString()`). -/
def placeholderPayload (slug : String) (currentYear : String) : AdminProjectFormPayload :=
  { slug := slug
    title := "Untitled project"
    category := "Unassigned"
    location := "City, Country"
    year := currentYear
    heroImage := ""
    heroCaption := "Pending hero caption"
    excerpt := "Use this space to summarize the commission in a single sentence before replacing this placeholder copy."
    description := [PLACEHOLDER_PARAGRAPH, PLACEHOLDER_PARAGRAPH]
    meta := [{ label := "Location", value := "City, Country" },
             { label := "Year", value := currentYear },
             { label := "Scope", value := "Project scope" }]
    services := ["Architecture"]
    collaborators := ["Studio Partner — TBD"]
    gallery := [] }

/-- Function `createAdminProject` (projectService.ts lines 855-920): create a
placeholder draft with `revision = 1`, history `created`, version
`manual-save`. -/
def createAdminProject (s : Store) (now : Nat) (currentYear : String) :
    Except AdminError (Store × Project) :=
  let takenSlugs := s.projects.map (·.slug)
  match ensureUniqueSlug ("untitled-" ++ natToBase36 now) takenSlugs now
      (takenSlugs.length + 1) with
  | none => .error .fuelExhausted
  | some slug =>
  let payload := placeholderPayload slug currentYear
  match buildContentFromPayload payload s with
  | .error e => .error e
  | .ok (content, s₁) =>
  let (pid, s₂) := freshId s₁
  let project : Project :=
    { id := pid
      slug := payload.slug
      title := payload.title
      titleSort := normalizeTitle payload.title
      categoryId := some content.categoryId
      categoryLabel := payload.category
      location := payload.location
      yearDisplay := payload.year
      status := .draft
      hero := content.hero
      excerpt := payload.excerpt
      descriptionBlocks := content.descriptionBlocks
      meta := content.meta
      services := content.services
      collaborators := content.collaborators
      gallery := content.gallery
      searchTokens := content.searchTokens
      revision := 1
      createdBy := some SYSTEM_USER_ID
      updatedBy := some SYSTEM_USER_ID
      createdAt := now
      updatedAt := now }
  let s₃ := { s₂ with projects := s₂.projects ++ [project] }
  match createHistoryEntry s₃ pid "created" none (some .draft) (some 1) with
  | .error e => .error e
  | .ok s₄ =>
    match recordVersion s₄ project "manual-save" false with
    | .error e => .error e
    | .ok s₅ => .ok (s₅, project)

/-- Re-sequence a cloned sub-list: sort by `order`, then assign fresh
sub-document ids and `order := index`. -/
def resequenceCloned (getOrder : α → Nat) (set : α → Nat → Nat → α) (items : List α)
    (s : Store) : List α × Store :=
  (sortByOrder getOrder items).foldl
    (fun (acc : List α × Store) item =>
      let (subId, s') := freshId acc.2
      (acc.1 ++ [set item subId acc.1.length], s'))
    ([], s)

/-- Function `duplicateAdminProject` (projectService.ts lines 922-989): clone
a live project as a fresh draft with slug `<slug>-copy` (collision-resolved),
`revision = 1`, no publish stamps, and every sub-list re-sequenced. -/
def duplicateAdminProject (s : Store) (projectId : Nat) (now : Nat) :
    Except AdminError (Store × Project) :=
  match findActiveProject s projectId with
  | none => .error .notFound
  | some project =>
  let takenSlugs := s.projects.map (·.slug)
  match ensureUniqueSlug (project.slug ++ "-copy") takenSlugs now
      (takenSlugs.length + 1) with
  | none => .error .fuelExhausted
  | some slug =>
  let (cloneId, s₁) := freshId s
  let (descriptionBlocks, s₂) := resequenceCloned (·.order)
    (fun b subId idx => { b with subId := subId, order := idx }) project.descriptionBlocks s₁
  let (meta, s₃) := resequenceCloned (·.order)
    (fun m subId idx => { m with subId := subId, order := idx }) project.meta s₂
  let (services, s₄) := resequenceCloned (·.order)
    (fun x subId idx => { x with subId := subId, order := idx }) project.services s₃
  let (collaborators, s₅) := resequenceCloned (·.order)
    (fun x subId idx => { x with subId := subId, order := idx }) project.collaborators s₄
  let (gallery, s₆) := resequenceCloned (·.order)
    (fun g subId idx => { g with subId := subId, order := idx }) project.gallery s₅
  let clone : Project :=
    { project with
      id := cloneId
      slug := slug
      title := project.title ++ " (Copy)"
      titleSort := normalizeTitle (project.title ++ " (Copy)")
      status := .draft
      revision := 1
      createdAt := now
      updatedAt := now
      publishedAt := none
      publishedBy := none
      updatedBy := some SYSTEM_USER_ID
      createdBy := some SYSTEM_USER_ID
      deletedAt := none
      descriptionBlocks := descriptionBlocks
      meta := meta
      services := services
      collaborators := collaborators
      gallery := gallery }
  let s₇ := { s₆ with projects := s₆.projects ++ [clone] }
  match createHistoryEntry s₇ cloneId "duplicated" (some .draft) (some .draft) (some 1) with
  | .error e => .error e
  | .ok s₈ =>
    match recordVersion s₈ clone "manual-save" false with
    | .error e => .error e
    | .ok s₉ => .ok (s₉, clone)

/-- Function `deleteAdminProject` (projectService.ts lines 1000-1045):
soft-delete (archive) the project, append history `deleted`, delete the
snapshot, then run the post-commit GC over the project's own asset ids. -/
def deleteAdminProject (s : Store) (projectId : Nat) (now : Nat) :
    Except AdminError (Store × Project) :=
  match findActiveProject s projectId with
  | none => .error .notFound
  | some project =>
  let archived := { project with
    status := ProjectStatus.archived
    deletedAt := some now
    updatedAt := now
    updatedBy := some SYSTEM_USER_ID }
  let newProjects :=
    updateFirst (fun p => p.id = projectId && p.deletedAt = none) (fun _ => archived) s.projects
  let s₁ := { s with projects := newProjects }
  match createHistoryEntry s₁ project.id "deleted" (some project.status)
      (some .archived) none with
  | .error e => .error e
  | .ok s₂ =>
    let s₃ := { s₂ with
      snapshots := removeFirst (fun sn => sn.projectId = project.id) s₂.snapshots }
    let collected := collectProjectAssetIds archived
    let assetIds := (match collected.1 with | some h => [h] | none => []) ++ collected.2
    let s₄ := if assetIds.isEmpty then s₃ else deleteMediaAssetsByIds assetIds s₃
    .ok (s₄, archived)

/--
Modelled from the spec: `unpublishAdminProject` is imported and called by
`src/app/api/admin/projects/[id]/unpublish/route.ts` but is not defined
anywhere under src/.  Per spec §4.6 and §6 the unpublish operation validates
loosely, sets `status = draft`, increments the revision, deletes the
PublishedProjectSnapshot, writes an `unpublish` ProjectVersion, and appends a
ProjectHistoryEntry with action `unpublished`.  The version and history
inserts go through the src-defined schema enums (`projectVersionSources`,
`projectHistoryActions`).
-/
def unpublishAdminProject (s : Store) (projectId : Nat)
    (payload : AdminProjectFormPayload) (now : Nat) : Except AdminError (Store × Project) :=
  match validateAdminPayload payload true with
  | .error details => .error (.validation details)
  | .ok () =>
  match findActiveProject s projectId with
  | none => .error .notFound
  | some project =>
  let updated := { project with
    status := ProjectStatus.draft
    revision := project.revision + 1
    updatedAt := now
    updatedBy := some SYSTEM_USER_ID }
  let newProjects :=
    updateFirst (fun p => p.id = projectId && p.deletedAt = none) (fun _ => updated) s.projects
  let s₁ := { s with projects := newProjects }
  let s₂ := { s₁ with
    snapshots := removeFirst (fun sn => sn.projectId = project.id) s₁.snapshots }
  match recordVersion s₂ updated "unpublish" false with
  | .error e => .error e
  | .ok s₃ =>
    match createHistoryEntry s₃ project.id "unpublished" (some project.status)
        (some .draft) (some updated.revision) with
    | .error e => .error e
    | .ok s₄ => .ok (s₄, updated)

/-! ## Specification predicates and concrete fixtures -/

/-- The collections an asset-binding pass never touches: projects,
snapshots, versions, history and the blob store. -/
def storeCore (s : Store) :
    List Project × List PublishedProjectSnapshot × List ProjectVersionRow ×
      List ProjectHistoryRow × List String :=
  (s.projects, s.snapshots, s.versions, s.history, s.blobs)

/-- Whether a `PublishedProjectSnapshot` with the given `projectId` exists. -/
def snapshotExistsFor (s : Store) (projectId : Nat) : Bool :=
  s.snapshots.any (fun sn => sn.projectId = projectId)

/-- The published-iff-snapshot invariant of spec §8. -/
def statusSnapshotInvariant (s : Store) : Prop :=
  ∀ p ∈ s.projects, (p.status = ProjectStatus.published ↔ snapshotExistsFor s p.id = true)

instance statusSnapshotInvariantDecidable (s : Store) :
    Decidable (statusSnapshotInvariant s) := by
  unfold statusSnapshotInvariant; infer_instance

/-- Store well-formedness: ids are below the fresh counter and key fields are
duplicate-free (mongo enforces `_id` uniqueness and the model never reuses a
counter value). -/
def WellFormedStore (s : Store) : Prop :=
  (∀ p ∈ s.projects, p.id < s.nextId) ∧
  (∀ sn ∈ s.snapshots, sn.projectId < s.nextId) ∧
  (s.projects.map (·.id)).Nodup ∧
  (s.snapshots.map (·.projectId)).Nodup

/-- Structure well-formedness is decidable, so fixtures can discharge it. -/
instance wellFormedStoreDecidable (s : Store) :
    Decidable (WellFormedStore s) := by
  unfold WellFormedStore; infer_instance

/-- Whether some `Project` document (live or archived) references the asset
from its hero or gallery — the exact query of the GC's re-check. -/
def projectReferencesAsset (s : Store) (aid : Nat) : Bool :=
  s.projects.any (fun p =>
    p.hero.assetId = some aid || p.gallery.any (fun g => g.assetId = some aid))

/-- Whether some `PublishedProjectSnapshot` references the asset from its
hero or gallery. -/
def snapshotReferencesAsset (s : Store) (aid : Nat) : Bool :=
  s.snapshots.any (fun sn =>
    sn.hero.assetId = some aid || sn.gallery.any (fun g => g.assetId = some aid))

/-- The checks `validateAdminPayload` applies in both modes (the
"unconditional rules"): every mode-independent block passes, the hero
caption fits 140 characters and the gallery fits 15 entries. -/
def unconditionalOk (p : AdminProjectFormPayload) : Bool :=
  titleErrors p = [] && slugErrors p = [] && categoryErrors p = [] && locationErrors p = [] &&
  yearErrors p = [] && excerptErrors p = [] && descriptionErrors p = [] && metaErrors p = [] &&
  servicesErrors p = [] && collaboratorsErrors p = [] &&
  p.heroCaption.length ≤ 140 && p.gallery.length ≤ 15

/-- An eighty-character description paragraph for fixtures. -/
def eightyChars : String := String.mk (List.replicate 80 'a')

/-- A concrete payload that passes loose validation (no hero, no gallery);
its category and service labels slugify to `culture` and `lighting`, which
satisfy the Category and Service schema slug validators, so the lookup
creations commit. -/
def loosePayload : AdminProjectFormPayload :=
  { slug := "p0"
    title := "T"
    category := "Culture"
    location := "L"
    year := "2024"
    heroImage := ""
    heroCaption := ""
    excerpt := "E"
    description := [eightyChars, eightyChars]
    meta := [{ label := "a", value := "1" }, { label := "b", value := "2" },
             { label := "c", value := "3" }]
    services := ["Lighting"]
    collaborators := ["N — O"]
    gallery := [] }

/-- A concrete payload that passes strict validation (hero plus a
three-entry gallery). -/
def strictPayload : AdminProjectFormPayload :=
  { loosePayload with
    heroImage := "https://img.example.com/h.jpg"
    heroCaption := "Hero caption"
    gallery := [{ src := "https://img.example.com/g1.jpg", caption := "g1" },
                { src := "https://img.example.com/g2.jpg", caption := "g2" },
                { src := "https://img.example.com/g3.jpg", caption := "g3" }] }

/-- A minimal pre-existing draft project. -/
def fixtureProject : Project :=
  { id := 1
    slug := "p0"
    title := "T"
    categoryLabel := "C"
    location := "L"
    yearDisplay := "2024"
    status := .draft
    revision := 1 }

/-- A store holding just the draft `fixtureProject`. -/
def fixtureStore : Store :=
  { nextId := 2, projects := [fixtureProject] }

/-- Concrete run backing the C1 counterexample: publish the fixture draft,
then save it again with the same (strict-valid) payload.  The save demotes
`status` to `draft` yet leaves the `PublishedProjectSnapshot` in place, so
the published-iff-snapshot equivalence fails afterwards. -/
def saveOnPublishedBreaksInvariant : Bool :=
  match publishAdminProject fixtureStore 1 strictPayload 10 with
  | .ok (s₁, _) =>
    match saveAdminProject s₁ 1 strictPayload 11 with
    | .ok (s₂, p₂) =>
      decide (p₂.status = .draft) && decide (p₂ ∈ s₂.projects) &&
      snapshotExistsFor s₂ p₂.id && decide (¬ statusSnapshotInvariant s₂)
    | .error _ => false
  | .error _ => false

/-- A store holding a published project and its snapshot, for the unpublish
run of C2. -/
def publishedFixtureStore : Store :=
  { nextId := 2
    projects := [{ fixtureProject with status := .published, publishedAt := some 5, revision := 2 }]
    snapshots := [{ projectId := 1, slug := "p0", title := "T", categoryLabel := "C",
                    location := "L", yearDisplay := "2024", publishedAt := 5, syncedAt := 5 }] }

/-- Concrete run backing C2: the spec-modelled unpublish on a published
project is rejected because the `projectHistory` schema's `action` enum has
no `unpublished` member, so no mutation commits. -/
def unpublishRejectedBySchema : Bool :=
  match unpublishAdminProject publishedFixtureStore 1 loosePayload 9 with
  | .error (.schemaValidation _) => true
  | _ => false

/-- A store in which asset 1 is referenced only by a snapshot (no project
references it), for the C3 counterexample. -/
def snapshotOnlyAssetStore : Store :=
  { nextId := 9
    projects := []
    snapshots := [{ projectId := 7, slug := "s", title := "S", categoryLabel := "C",
                    location := "L", yearDisplay := "2024",
                    gallery := [{ assetId := some 1, src := "k", caption := "c", order := 0 }] }]
    assets := [{ id := 1, storageKey := "k", publicUrl := "https://img.example.com/k.jpg",
                 kind := .gallery }]
    blobs := ["k"] }

/-- A transaction body whose first attempt fails with a transient driver
error and whose later attempts succeed, for the C7 witness. -/
def retryFixtureOp (k : Nat) : Except DriverError Nat :=
  if k = 0 then .error { errorLabels := ["TransientTransactionError"], code := none }
  else .ok 42

/-- A payload violating several independent rules at once (blank title, no
services, sixteen gallery entries), for the C8 witness. -/
def badPayload : AdminProjectFormPayload :=
  { loosePayload with
    title := ""
    services := []
    gallery := List.replicate 16 { src := "x", caption := "y" } }

/-- Decimal value of a digit string (proof support for digit-rendering
round trips). -/
def valDec (cs : List Char) : Nat :=
  cs.foldl (fun acc c => acc * 10 + (c.toNat - '0'.toNat)) 0

/-- Predicate for claim C9: the `order` values of a sub-list form exactly
the contiguous sequence `0..n-1` in display order. -/
def contiguousOrders (getOrder : α → Nat) (items : List α) : Prop :=
  items.map getOrder = List.range items.length

/-- Predicate for claim C9 over a whole project: every ordered sub-list
(description blocks, meta rows, services, collaborators, gallery) is
contiguously ordered. -/
def projectOrdersContiguous (p : Project) : Prop :=
  contiguousOrders (·.order) p.descriptionBlocks ∧
  contiguousOrders (·.order) p.meta ∧
  contiguousOrders (·.order) p.services ∧
  contiguousOrders (·.order) p.collaborators ∧
  contiguousOrders (·.order) p.gallery

/-! ## Theorems: the validator (claims C6, C8) -/

theorem titleErrors_eq (p : AdminProjectFormPayload) :
    titleErrors p = (titleRules.filter (fun r => r.check p)).map (·.message) := by
  by_cases h1 : isBlank p.title <;> by_cases h2 : p.title.length > 120 <;>
    simp [titleErrors, titleRules, List.filter_cons, List.filter_nil, h1, h2]

theorem slugErrors_eq (p : AdminProjectFormPayload) :
    slugErrors p = (slugRules.filter (fun r => r.check p)).map (·.message) := by
  by_cases h1 : isBlank p.slug <;> by_cases h2 : slugFormatOk p.slug <;>
    by_cases h3 : p.slug.length > 60 <;>
      simp [slugErrors, slugRules, List.filter_cons, List.filter_nil, h1, h2, h3]

theorem categoryErrors_eq (p : AdminProjectFormPayload) :
    categoryErrors p = (categoryRulesD.filter (fun r => r.check p)).map (·.message) := by
  by_cases h1 : isBlank p.category <;>
    simp [categoryErrors, categoryRulesD, List.filter_cons, List.filter_nil, h1]

theorem locationErrors_eq (p : AdminProjectFormPayload) :
    locationErrors p = (locationRulesD.filter (fun r => r.check p)).map (·.message) := by
  by_cases h1 : isBlank p.location <;>
    simp [locationErrors, locationRulesD, List.filter_cons, List.filter_nil, h1]

theorem yearErrors_eq (p : AdminProjectFormPayload) :
    yearErrors p = (yearRules.filter (fun r => r.check p)).map (·.message) := by
  by_cases h1 : isBlank p.year <;> by_cases h2 : yearFormatOk (jsTrim p.year) <;>
    simp [yearErrors, yearRules, List.filter_cons, List.filter_nil, h1, h2]

theorem heroErrors_eq (p : AdminProjectFormPayload) (allow : Bool) :
    heroErrors p allow = ((heroRules allow).filter (fun r => r.check p)).map (·.message) := by
  cases allow <;> by_cases h1 : isBlank p.heroImage <;> by_cases h2 : isBlank p.heroCaption <;>
    by_cases h3 : p.heroCaption.length > 140 <;>
      simp [heroErrors, heroRules, List.filter_cons, List.filter_nil, h1, h2, h3]

theorem excerptErrors_eq (p : AdminProjectFormPayload) :
    excerptErrors p = (excerptRules.filter (fun r => r.check p)).map (·.message) := by
  by_cases h1 : isBlank p.excerpt <;> by_cases h2 : p.excerpt.length > 360 <;>
    simp [excerptErrors, excerptRules, List.filter_cons, List.filter_nil, h1, h2]

theorem descriptionErrors_eq (p : AdminProjectFormPayload) :
    descriptionErrors p = (descriptionRules.filter (fun r => r.check p)).map (·.message) := by
  by_cases h1 : p.description.length < 2 <;>
    by_cases h2 : p.description.any (fun par => (jsTrim par).length < 80) <;>
      simp [descriptionErrors, descriptionRules, List.filter_cons, List.filter_nil, h1, h2]

theorem metaErrors_eq (p : AdminProjectFormPayload) :
    metaErrors p = (metaRules.filter (fun r => r.check p)).map (·.message) := by
  by_cases h1 : p.meta.length < 3 <;> by_cases h2 : hasDuplicateLabel (metaLabels p) <;>
    by_cases h3 : p.meta.any (fun item => isBlank item.label || isBlank item.value) <;>
      simp [metaErrors, metaRules, List.filter_cons, List.filter_nil, h1, h2, h3]

theorem servicesErrors_eq (p : AdminProjectFormPayload) :
    servicesErrors p = (servicesRulesD.filter (fun r => r.check p)).map (·.message) := by
  by_cases h1 : p.services.isEmpty <;>
    simp [servicesErrors, servicesRulesD, List.filter_cons, List.filter_nil, h1]

theorem collaboratorsErrors_eq (p : AdminProjectFormPayload) :
    collaboratorsErrors p = (collaboratorsRulesD.filter (fun r => r.check p)).map (·.message) := by
  by_cases h1 : p.collaborators.isEmpty <;>
    simp [collaboratorsErrors, collaboratorsRulesD, List.filter_cons, List.filter_nil, h1]

theorem galleryErrors_eq (p : AdminProjectFormPayload) (allow : Bool) :
    galleryErrors p allow = ((galleryRules allow).filter (fun r => r.check p)).map (·.message) := by
  cases allow with
  | true =>
    by_cases h2 : p.gallery.length > 15 <;>
      simp [galleryErrors, galleryRules, List.filter_cons, List.filter_nil, h2]
  | false =>
    by_cases h1 : p.gallery.length < 3
    · have h2 : ¬ p.gallery.length > 15 := by omega
      simp [galleryErrors, galleryRules, List.filter_cons, List.filter_nil, h1, h2]
    · by_cases h2 : p.gallery.length > 15
      · simp [galleryErrors, galleryRules, List.filter_cons, List.filter_nil, h1, h2]
      · by_cases h3 : p.gallery.any (fun item => isBlank item.src || isBlank item.caption) <;>
          simp [galleryErrors, galleryRules, List.filter_cons, List.filter_nil, h1, h2, h3]

theorem validationErrors_eq_violated (p : AdminProjectFormPayload) (allow : Bool) :
    validationErrors p allow = violatedMessages p allow := by
  unfold validationErrors violatedMessages adminValidationRules
  simp only [List.filter_append, List.map_append]
  rw [titleErrors_eq, slugErrors_eq, categoryErrors_eq, locationErrors_eq, yearErrors_eq,
    heroErrors_eq, excerptErrors_eq, descriptionErrors_eq, metaErrors_eq, servicesErrors_eq,
    collaboratorsErrors_eq, galleryErrors_eq]

/--
C8: `validateAdminPayload` evaluates all rules without short-circuiting: the
collected message list equals the messages of exactly the violated rules of
the declarative rule list (in source order), the function succeeds iff no
rule is violated, and a failure carries one single error whose `details` are
exactly all violated rules' messages.
-/
theorem claim_C8 (p : AdminProjectFormPayload) (allow : Bool) :
    validationErrors p allow = violatedMessages p allow ∧
    (validateAdminPayload p allow = .ok () ↔ violatedMessages p allow = []) ∧
    ∀ details, validateAdminPayload p allow = .error details →
      details = violatedMessages p allow ∧ details ≠ [] := by
  refine ⟨validationErrors_eq_violated p allow, ?_, ?_⟩
  · rw [← validationErrors_eq_violated]
    unfold validateAdminPayload
    by_cases h : (validationErrors p allow).isEmpty
    · simp [h, List.isEmpty_iff.mp h]
    · have hne : validationErrors p allow ≠ [] := by
        intro hnil
        rw [hnil] at h
        exact h rfl
      simp [h, hne]
  · intro details hd
    rw [← validationErrors_eq_violated]
    unfold validateAdminPayload at hd
    by_cases h : (validationErrors p allow).isEmpty
    · simp [h] at hd
    · simp [h] at hd
      subst hd
      exact ⟨rfl, fun hnil => h (by simp [hnil])⟩

/-- C8 witness: a payload violating three independent rules yields all three
messages in one failure. -/
theorem claim_C8_witness :
    validationErrors badPayload true = violatedMessages badPayload true ∧
    (validateAdminPayload badPayload true = .ok () ↔ violatedMessages badPayload true = []) ∧
    violatedMessages badPayload true =
      ["Title is required", "Include at least one service",
       "Gallery can include up to fifteen images"] :=
  ⟨(claim_C8 badPayload true).1, (claim_C8 badPayload true).2.1, by decide⟩

theorem heroErrors_strict_nil {p : AdminProjectFormPayload}
    (h : heroErrors p false = []) :
    isBlank p.heroImage = false ∧ isBlank p.heroCaption = false := by
  by_cases h1 : isBlank p.heroImage
  · simp [heroErrors, h1] at h
  · by_cases h2 : isBlank p.heroCaption
    · simp [heroErrors, h1, h2] at h
    · exact ⟨by simpa using h1, by simpa using h2⟩

theorem galleryErrors_strict_nil {p : AdminProjectFormPayload}
    (h : galleryErrors p false = []) :
    3 ≤ p.gallery.length ∧ p.gallery.length ≤ 15 ∧
    ∀ item ∈ p.gallery, isBlank item.src = false ∧ isBlank item.caption = false := by
  by_cases h1 : p.gallery.length < 3
  · simp [galleryErrors, h1] at h
  · by_cases h2 : p.gallery.length > 15
    · simp [galleryErrors, h1, h2] at h
    · by_cases h3 : p.gallery.any (fun item => isBlank item.src || isBlank item.caption)
      · simp [galleryErrors, h1, h2, h3] at h
      · refine ⟨by omega, by omega, ?_⟩
        intro item hitem
        have h4 : ∀ x ∈ p.gallery, isBlank x.src = false ∧ isBlank x.caption = false := by
          simpa using h3
        exact h4 item hitem

/--
C6: a payload with an empty gallery that satisfies the mode-independent
rules passes loose validation (`saveDraft`) but fails strict validation
(`publish`); and strict acceptance requires a hero image, a hero caption,
and a gallery of 3 to 15 entries each with image reference and caption.
-/
theorem claim_C6 (p : AdminProjectFormPayload) :
    (unconditionalOk p = true → p.gallery = [] →
      validateAdminPayload p true = .ok () ∧
      ∃ details, validateAdminPayload p false = .error details ∧
        "Gallery requires at least three images" ∈ details) ∧
    (validateAdminPayload p false = .ok () →
      isBlank p.heroImage = false ∧ isBlank p.heroCaption = false ∧
      3 ≤ p.gallery.length ∧ p.gallery.length ≤ 15 ∧
      ∀ item ∈ p.gallery, isBlank item.src = false ∧ isBlank item.caption = false) := by
  constructor
  · intro hok hgal
    simp only [unconditionalOk, Bool.and_eq_true, decide_eq_true_eq] at hok
    obtain ⟨⟨⟨⟨⟨⟨⟨⟨⟨⟨⟨ht, hs⟩, hc⟩, hl⟩, hy⟩, he⟩, hd⟩, hm⟩, hsv⟩, hcl⟩, hcap⟩, -⟩ := hok
    have hhero : heroErrors p true = [] := by
      simp [heroErrors]
      omega
    have hgalLoose : galleryErrors p true = [] := by
      simp [galleryErrors, hgal]
    have hloose : validationErrors p true = [] := by
      simp [validationErrors, ht, hs, hc, hl, hy, he, hd, hm, hsv, hcl, hhero, hgalLoose]
    refine ⟨by simp [validateAdminPayload, hloose], validationErrors p false, ?_, ?_⟩
    · have hmem : "Gallery requires at least three images" ∈ validationErrors p false := by
        simp [validationErrors, galleryErrors, hgal]
      simp [validateAdminPayload, List.isEmpty_iff, List.ne_nil_of_mem hmem]
    · simp [validationErrors, galleryErrors, hgal]
  · intro hok
    have hempty : validationErrors p false = [] := by
      unfold validateAdminPayload at hok
      by_cases h : (validationErrors p false).isEmpty
      · exact List.isEmpty_iff.mp h
      · simp [h] at hok
    have hsplit := hempty
    unfold validationErrors at hsplit
    simp only [List.append_eq_nil] at hsplit
    obtain ⟨⟨⟨⟨⟨⟨⟨⟨⟨⟨⟨-, -⟩, -⟩, -⟩, -⟩, hhero⟩, -⟩, -⟩, -⟩, -⟩, -⟩, hgal⟩ := hsplit
    obtain ⟨himg, hcap⟩ := heroErrors_strict_nil hhero
    obtain ⟨hlo, hhi, hitems⟩ := galleryErrors_strict_nil hgal
    exact ⟨himg, hcap, hlo, hhi, hitems⟩

/-- C6 witness: the concrete loose payload (empty gallery) passes loose and
fails strict with the gallery message; the concrete strict payload passes
strict and therefore carries hero and a 3-entry gallery. -/
theorem claim_C6_witness :
    (validateAdminPayload loosePayload true = .ok () ∧
      ∃ details, validateAdminPayload loosePayload false = .error details ∧
        "Gallery requires at least three images" ∈ details) ∧
    (isBlank strictPayload.heroImage = false ∧ isBlank strictPayload.heroCaption = false ∧
      3 ≤ strictPayload.gallery.length ∧ strictPayload.gallery.length ≤ 15 ∧
      ∀ item ∈ strictPayload.gallery,
        isBlank item.src = false ∧ isBlank item.caption = false) :=
  ⟨(claim_C6 loosePayload).1 (by decide) rfl,
   (claim_C6 strictPayload).2 rfl⟩

/-! ## Theorems: the slug allocator (claim C5) -/

theorem valDec_append (xs : List Char) (c : Char) :
    valDec (xs ++ [c]) = valDec xs * 10 + (c.toNat - '0'.toNat) := by
  simp [valDec, List.foldl_append]

theorem digitChar_toNat {d : Nat} (h : d < 10) :
    (Nat.digitChar d).toNat - '0'.toNat = d := by
  interval_cases d <;> decide

theorem valDec_decDigitsGo : ∀ fuel n, n ≤ fuel → valDec (decDigitsGo fuel n) = n := by
  intro fuel
  induction fuel with
  | zero =>
    intro n h
    interval_cases n
    simp [decDigitsGo, valDec]
  | succ fuel ih =>
    intro n h
    by_cases h10 : n < 10
    · simpa [decDigitsGo, h10, valDec] using digitChar_toNat h10
    · have hdiv : n / 10 ≤ fuel := by
        have h1 : n / 10 < n := Nat.div_lt_self (by omega) (by omega)
        omega
      have hmod : n % 10 < 10 := Nat.mod_lt _ (by omega)
      simp only [decDigitsGo, if_neg h10]
      rw [valDec_append, ih _ hdiv, digitChar_toNat hmod]
      omega

theorem natToString_data_injective {a b : Nat}
    (h : (natToString a).data = (natToString b).data) : a = b := by
  have h' : decDigitsGo (a + 1) a = decDigitsGo (b + 1) b := h
  have hv := congrArg valDec h'
  rwa [valDec_decDigitsGo _ _ (Nat.le_succ a), valDec_decDigitsGo _ _ (Nat.le_succ b)] at hv

theorem decDigitsGo_ne_nil (fuel n : Nat) (h : 0 < fuel) : decDigitsGo fuel n ≠ [] := by
  cases fuel with
  | zero => omega
  | succ f => by_cases h10 : n < 10 <;> simp [decDigitsGo, h10]

theorem natToString_data_ne_nil (n : Nat) : (natToString n).data ≠ [] := by
  unfold natToString
  simpa using decDigitsGo_ne_nil _ n (Nat.succ_pos _)

theorem first_ne_suffixed (base first : String)
    (hfirst : first = base ∧ base.data ≠ [] ∨ base.data = [] ∧ ∃ t, first = "project-" ++ t)
    (j : Nat) : first ≠ base ++ "-" ++ natToString (j + 1) := by
  intro hij
  rcases hfirst with ⟨rfl, hne⟩ | ⟨hnil, t, rfl⟩
  · have hd := congrArg String.data hij
    rw [String.data_append, String.data_append] at hd
    have hlen := congrArg List.length hd
    rw [List.length_append, List.length_append] at hlen
    have h1 : ("-" : String).data.length = 1 := rfl
    have h2 : 0 < (natToString (j + 1)).data.length :=
      List.length_pos.mpr (natToString_data_ne_nil _)
    omega
  · have hb : base = "" := by
      cases base with
      | mk d => cases hnil; rfl
    subst hb
    have hd := congrArg String.data hij
    rw [String.data_append, String.data_append, String.data_append] at hd
    have hpr : ("project-" : String).data = 'p' :: "roject-".data := rfl
    have hdash : ("" : String).data ++ ("-" : String).data = '-' :: [] := rfl
    rw [hpr, hdash] at hd
    have hheads := congrArg List.head? hd
    simp at hheads

theorem slugCandidate_injective (base first : String)
    (hfirst : first = base ∧ base.data ≠ [] ∨ base.data = [] ∧ ∃ t, first = "project-" ++ t) :
    Function.Injective (slugCandidate base first) := by
  intro i j hij
  match i, j with
  | 0, 0 => rfl
  | 0, j + 1 =>
    exact absurd hij (first_ne_suffixed base first hfirst j)
  | i + 1, 0 =>
    exact absurd hij.symm (first_ne_suffixed base first hfirst i)
  | i + 1, j + 1 =>
    simp only [slugCandidate] at hij
    have hd := congrArg String.data hij
    rw [String.data_append, String.data_append, String.data_append, String.data_append,
      List.append_assoc, List.append_assoc] at hd
    have hns : (natToString (i + 1)).data = (natToString (j + 1)).data :=
      List.append_cancel_left (List.append_cancel_left hd)
    have := natToString_data_injective hns
    omega

theorem findFreeSlug_spec (cand : Nat → String) (isTaken : String → Bool) :
    ∀ fuel i, (∃ k, k < fuel ∧ isTaken (cand (i + k)) = false) →
      ∃ k, findFreeSlug cand isTaken i fuel = some (cand (i + k)) ∧
        isTaken (cand (i + k)) = false ∧ ∀ j, j < k → isTaken (cand (i + j)) = true := by
  intro fuel
  induction fuel with
  | zero =>
    rintro i ⟨k, hk, -⟩
    omega
  | succ fuel ih =>
    rintro i ⟨k, hk, hfree⟩
    by_cases hcur : isTaken (cand i)
    · have hk0 : k ≠ 0 := by
        rintro rfl
        rw [Nat.add_zero] at hfree
        rw [hcur] at hfree
        cases hfree
      obtain ⟨k', hloop, hfree', hprev⟩ := ih (i + 1)
        ⟨k - 1, by omega, by rw [show i + 1 + (k - 1) = i + k by omega]; exact hfree⟩
      refine ⟨k' + 1, ?_, ?_, ?_⟩
      · simp only [findFreeSlug, hcur, if_true]
        rw [show i + (k' + 1) = i + 1 + k' by omega]
        exact hloop
      · rw [show i + (k' + 1) = i + 1 + k' by omega]
        exact hfree'
      · intro j hj
        cases j with
        | zero => simpa using hcur
        | succ j' =>
          have := hprev j' (by omega)
          rwa [show i + 1 + j' = i + (j' + 1) by omega] at this
    · refine ⟨0, ?_, ?_, ?_⟩
      · simp [findFreeSlug, hcur]
      · simpa using hcur
      · intro j hj
        omega

theorem exists_free_candidate (cand : Nat → String) (hinj : Function.Injective cand)
    (taken : List String) : ∃ k, k ≤ taken.length ∧ cand k ∉ taken := by
  by_contra hall
  push_neg at hall
  have hsub : ((List.range (taken.length + 1)).map cand) ⊆ taken := by
    intro x hx
    simp only [List.mem_map, List.mem_range] at hx
    obtain ⟨k, hk, rfl⟩ := hx
    exact hall k (by omega)
  have hnd : ((List.range (taken.length + 1)).map cand).Nodup :=
    (List.nodup_range _).map hinj
  have hle := (List.subperm_of_subset hnd hsub).length_le
  simp at hle

/--
C5: with fuel covering every candidate the allocator can need, for every
desired slug and taken-slug list `ensureUniqueSlug` returns a slug that is
not taken (hence unique among the non-deleted projects, whose slugs form a
subset of `takenSlugs`); the result is the first free candidate of the
sequence base, `base-1`, `base-2`, …, every earlier candidate being taken;
in particular a free nonempty normalized base is returned as-is, and an
empty normalized base falls back to the timestamp placeholder
`project-<now in base 36>`.
-/
theorem claim_C5 (desired : String) (taken : List String) (now : Nat) :
    ∃ r, ensureUniqueSlug desired taken now (taken.length + 1) = some r ∧
      r ∉ taken ∧
      (∃ k, r = slugCandidate (slugify desired)
          (if (slugify desired).data.isEmpty then "project-" ++ natToBase36 now
           else slugify desired) k ∧
        ∀ j, j < k →
          slugCandidate (slugify desired)
            (if (slugify desired).data.isEmpty then "project-" ++ natToBase36 now
             else slugify desired) j ∈ taken) ∧
      ((slugify desired).data ≠ [] → slugify desired ∉ taken → r = slugify desired) ∧
      ((slugify desired).data = [] → ("project-" ++ natToBase36 now) ∉ taken →
        r = "project-" ++ natToBase36 now) := by
  have hinj : Function.Injective (slugCandidate (slugify desired)
      (if (slugify desired).data.isEmpty then "project-" ++ natToBase36 now
       else slugify desired)) := by
    apply slugCandidate_injective
    by_cases hb : (slugify desired).data.isEmpty
    · right
      exact ⟨by simpa using hb, natToBase36 now, by simp [hb]⟩
    · left
      exact ⟨by simp [hb], by simpa using hb⟩
  obtain ⟨k0, hk0le, hk0free⟩ := exists_free_candidate _ hinj taken
  have hex : ∃ k, k < taken.length + 1 ∧
      (taken.contains (slugCandidate (slugify desired)
        (if (slugify desired).data.isEmpty then "project-" ++ natToBase36 now
         else slugify desired) (0 + k))) = false :=
    ⟨k0, by omega, by simpa using hk0free⟩
  obtain ⟨k, hloop, hfree, hprev⟩ := findFreeSlug_spec _ _ (taken.length + 1) 0 hex
  simp only [Nat.zero_add] at hloop hfree hprev
  have hfree' : slugCandidate (slugify desired)
      (if (slugify desired).data.isEmpty then "project-" ++ natToBase36 now
       else slugify desired) k ∉ taken := by
    simpa using hfree
  have hprev' : ∀ j, j < k → slugCandidate (slugify desired)
      (if (slugify desired).data.isEmpty then "project-" ++ natToBase36 now
       else slugify desired) j ∈ taken := by
    intro j hj
    simpa using hprev j hj
  refine ⟨_, ?_, hfree', ⟨k, rfl, hprev'⟩, ?_, ?_⟩
  · unfold ensureUniqueSlug
    exact hloop
  · intro hne hfreebase
    have hk0 : k = 0 := by
      by_contra hk
      have h0 := hprev' 0 (by omega)
      simp only [slugCandidate] at h0
      rw [if_neg (by simpa using hne)] at h0
      exact hfreebase h0
    subst hk0
    simp only [slugCandidate]
    rw [if_neg (show ¬(slugify desired).data.isEmpty = true by simpa using hne)]
  · intro hnil hfreeph
    have hk0 : k = 0 := by
      by_contra hk
      have h0 := hprev' 0 (by omega)
      simp only [slugCandidate] at h0
      rw [if_pos (by simpa using hnil)] at h0
      exact hfreeph h0
    subst hk0
    simp only [slugCandidate]
    rw [if_pos (show (slugify desired).data.isEmpty = true by simpa using hnil)]

/-- C5 witness: allocating "My Project" against a store already holding
`my-project` yields the suffixed free slug. -/
theorem claim_C5_witness :
    ∃ r, ensureUniqueSlug "My Project" ["my-project"] 99 2 = some r ∧
      r ∉ ["my-project"] := by
  obtain ⟨r, hrun, hfree, -, -, -⟩ := claim_C5 "My Project" ["my-project"] 99
  exact ⟨r, by simpa using hrun, hfree⟩

/-! ## Theorems: the transaction coordinator (claim C7) -/

/--
C7: with the configured limit of 3 attempts, the coordinator sleeps the
exponentially doubling backoff `100·2^k` before retry `k+1`, makes at most
`MAX_TRANSACTION_RETRIES` attempts (at most 2 delays), propagates the
outcome of the last attempt made (so when retries are exhausted the last
error reaches the caller), retries only after errors classified transient,
and stops before the limit only when the last outcome is a success or a
non-transient error.
-/
theorem claim_C7 {E T : Type} (op : Nat → Except E T) (transient : E → Bool) :
    ∀ r ds, runWithTransaction op transient MAX_TRANSACTION_RETRIES = (r, ds) →
      ds = (List.range ds.length).map (fun k => TRANSACTION_RETRY_BASE_DELAY_MS * 2 ^ k) ∧
      ds.length ≤ MAX_TRANSACTION_RETRIES - 1 ∧
      r = some (op ds.length) ∧
      (∀ k, k < ds.length → ∃ e, op k = .error e ∧ transient e = true) ∧
      (∀ e, op ds.length = .error e → transient e = true →
        ds.length = MAX_TRANSACTION_RETRIES - 1) := by
  intro r ds hrun
  cases h0 : op 0 with
  | ok v =>
    have hpair : runWithTransaction op transient MAX_TRANSACTION_RETRIES =
        (some (.ok v), []) := by
      simp [runWithTransaction, runTxGo, MAX_TRANSACTION_RETRIES, h0]
    rw [hpair, Prod.mk.injEq] at hrun
    obtain ⟨rfl, rfl⟩ := hrun
    refine ⟨by decide, by decide, by simp [h0], ?_, ?_⟩
    · intro k hk
      simp at hk
    · intro e he _
      rw [List.length_nil, h0] at he
      cases he
  | error e0 =>
    cases ht0 : transient e0 with
    | false =>
      have hpair : runWithTransaction op transient MAX_TRANSACTION_RETRIES =
          (some (.error e0), []) := by
        simp [runWithTransaction, runTxGo, MAX_TRANSACTION_RETRIES, h0, ht0]
      rw [hpair, Prod.mk.injEq] at hrun
      obtain ⟨rfl, rfl⟩ := hrun
      refine ⟨by decide, by decide, by simp [h0], ?_, ?_⟩
      · intro k hk
        simp at hk
      · intro e he htr
        rw [List.length_nil, h0] at he
        cases he
        rw [ht0] at htr
        cases htr
    | true =>
      cases h1 : op 1 with
      | ok v =>
        have hpair : runWithTransaction op transient MAX_TRANSACTION_RETRIES =
            (some (.ok v), [TRANSACTION_RETRY_BASE_DELAY_MS * 2 ^ 0]) := by
          simp [runWithTransaction, runTxGo, MAX_TRANSACTION_RETRIES, h0, ht0, h1]
        rw [hpair, Prod.mk.injEq] at hrun
        obtain ⟨rfl, rfl⟩ := hrun
        refine ⟨by decide, by decide, by simp [h1], ?_, ?_⟩
        · intro k hk
          simp at hk
          subst hk
          exact ⟨e0, h0, ht0⟩
        · intro e he _
          rw [show [TRANSACTION_RETRY_BASE_DELAY_MS * 2 ^ 0].length = 1 from rfl, h1] at he
          cases he
      | error e1 =>
        cases ht1 : transient e1 with
        | false =>
          have hpair : runWithTransaction op transient MAX_TRANSACTION_RETRIES =
              (some (.error e1), [TRANSACTION_RETRY_BASE_DELAY_MS * 2 ^ 0]) := by
            simp [runWithTransaction, runTxGo, MAX_TRANSACTION_RETRIES, h0, ht0, h1, ht1]
          rw [hpair, Prod.mk.injEq] at hrun
          obtain ⟨rfl, rfl⟩ := hrun
          refine ⟨by decide, by decide, by simp [h1], ?_, ?_⟩
          · intro k hk
            simp at hk
            subst hk
            exact ⟨e0, h0, ht0⟩
          · intro e he htr
            rw [show [TRANSACTION_RETRY_BASE_DELAY_MS * 2 ^ 0].length = 1 from rfl, h1] at he
            cases he
            rw [ht1] at htr
            cases htr
        | true =>
          cases h2 : op 2 with
          | ok v =>
            have hpair : runWithTransaction op transient MAX_TRANSACTION_RETRIES =
                (some (.ok v), [TRANSACTION_RETRY_BASE_DELAY_MS * 2 ^ 0,
                                TRANSACTION_RETRY_BASE_DELAY_MS * 2 ^ 1]) := by
              simp [runWithTransaction, runTxGo, MAX_TRANSACTION_RETRIES, h0, ht0, h1, ht1, h2]
            rw [hpair, Prod.mk.injEq] at hrun
            obtain ⟨rfl, rfl⟩ := hrun
            refine ⟨by decide, by decide, by simp [h2], ?_, fun _ _ _ => by decide⟩
            intro k hk
            simp at hk
            interval_cases k
            · exact ⟨e0, h0, ht0⟩
            · exact ⟨e1, h1, ht1⟩
          | error e2 =>
            have hpair : runWithTransaction op transient MAX_TRANSACTION_RETRIES =
                (some (.error e2), [TRANSACTION_RETRY_BASE_DELAY_MS * 2 ^ 0,
                                    TRANSACTION_RETRY_BASE_DELAY_MS * 2 ^ 1]) := by
              simp [runWithTransaction, runTxGo, MAX_TRANSACTION_RETRIES, h0, ht0, h1, ht1, h2]
            rw [hpair, Prod.mk.injEq] at hrun
            obtain ⟨rfl, rfl⟩ := hrun
            refine ⟨by decide, by decide, by simp [h2], ?_, fun _ _ _ => by decide⟩
            intro k hk
            simp at hk
            interval_cases k
            · exact ⟨e0, h0, ht0⟩
            · exact ⟨e1, h1, ht1⟩

/-- C7 witness: an operation whose first attempt fails with a transient
driver error is retried after the 100 ms base delay and its second attempt's
success is returned. -/
theorem claim_C7_witness :
    runWithTransaction retryFixtureOp isTransientTransactionError MAX_TRANSACTION_RETRIES =
      (some (.ok 42), [100]) ∧
    (∃ e, retryFixtureOp 0 = .error e ∧ isTransientTransactionError e = true) := by
  have h := claim_C7 retryFixtureOp isTransientTransactionError (some (.ok 42)) [100] (by rfl)
  exact ⟨by rfl, h.2.2.2.1 0 (by decide)⟩

/-! ## Theorems: the media URL resolver (claim C10) -/

theorem jsStartsWith_api_media (x : String) :
    jsStartsWith ("/api/media?key=" ++ x) "/api/" = true := by
  unfold jsStartsWith
  rw [String.data_append]
  rw [List.take_append_of_le_length (by decide)]
  decide

theorem ne_empty_of_jsStartsWith_api {w : String} (h : jsStartsWith w "/api/" = true) :
    w ≠ "" := by
  rintro rfl
  exact absurd h (by decide)

theorem resolveMediaUrl_of_api {v : String} (h : jsStartsWith v "/api/" = true) :
    resolveMediaUrl (some v) = .ok v := by
  have hv : v ≠ "" := ne_empty_of_jsStartsWith_api h
  simp [resolveMediaUrl, hv, h]

theorem resolveMediaUrl_of_plain {v : String} (hv : v ≠ "")
    (hapi : jsStartsWith v "/api/" = false) (habs : absoluteUrlTest v = false) :
    resolveMediaUrl (some v) = .ok ("/api/media?key=" ++ encodeURIComponent v) := by
  simp [resolveMediaUrl, hv, hapi, habs]

/--
C10 counterexample: `resolveMediaUrl` is not total.  On the R2-shaped URL
`https://a.r2.dev/%` the captured key `%` is malformed percent-encoding, so
`decodeURIComponent` throws a `URIError` that the function does not catch.
-/
theorem claim_C10_counterexample :
    resolveMediaUrl (some "https://a.r2.dev/%") = .error () := by rfl

/--
C10 (amended): `resolveMediaUrl` is deterministic and idempotent wherever it
is defined — null/undefined and the empty string map to the empty string,
inputs starting with `/api/` are returned unchanged, every non-absolute-URL
input maps to a `/api/media?key=…` proxy URL, and any successful output is a
fixed point — but it is not total: it throws exactly when the input matches
the R2 URL pattern and the captured key is malformed percent-encoding.
-/
theorem claim_C10 :
    resolveMediaUrl none = .ok "" ∧
    resolveMediaUrl (some "") = .ok "" ∧
    (∀ v, jsStartsWith v "/api/" = true → resolveMediaUrl (some v) = .ok v) ∧
    (∀ v, v ≠ "" → jsStartsWith v "/api/" = false → absoluteUrlTest v = false →
      resolveMediaUrl (some v) = .ok ("/api/media?key=" ++ encodeURIComponent v)) ∧
    (∀ v w, resolveMediaUrl (some v) = .ok w → resolveMediaUrl (some w) = .ok w) ∧
    (∀ v, resolveMediaUrl (some v) = .error () →
      absoluteUrlTest v = true ∧ ∃ captured, r2KeyCapture v = some captured ∧
        decodeURIComponent captured = none) := by
  refine ⟨rfl, rfl, fun v h => resolveMediaUrl_of_api h,
    fun v hv hapi habs => resolveMediaUrl_of_plain hv hapi habs, ?_, ?_⟩
  · intro v w h
    by_cases hv : v = ""
    · subst hv
      rw [show resolveMediaUrl (some "") = Except.ok "" from rfl] at h
      cases h
      rfl
    · by_cases hapi : jsStartsWith v "/api/"
      · rw [resolveMediaUrl_of_api hapi] at h
        cases h
        exact resolveMediaUrl_of_api hapi
      · by_cases habs : absoluteUrlTest v
        · cases hr2 : r2KeyCapture v with
          | none =>
            simp only [resolveMediaUrl, if_neg hv, if_neg hapi,
              if_pos habs, hr2, Except.ok.injEq] at h
            subst h
            simp only [resolveMediaUrl, if_neg hv, if_neg hapi,
              if_pos habs, hr2]
          | some captured =>
            cases hdec : decodeURIComponent captured with
            | none =>
              simp only [resolveMediaUrl, if_neg hv, if_neg hapi,
                if_pos habs, hr2, hdec] at h
              exact Except.noConfusion h
            | some key =>
              simp only [resolveMediaUrl, if_neg hv, if_neg hapi,
                if_pos habs, hr2, hdec, Except.ok.injEq] at h
              subst h
              exact resolveMediaUrl_of_api (jsStartsWith_api_media _)
        · rw [resolveMediaUrl_of_plain hv (by simpa using hapi) (by simpa using habs)] at h
          cases h
          exact resolveMediaUrl_of_api (jsStartsWith_api_media _)
  · intro v herr
    by_cases hv : v = ""
    · subst hv
      simp [resolveMediaUrl] at herr
    · by_cases hapi : jsStartsWith v "/api/"
      · rw [resolveMediaUrl_of_api hapi] at herr
        cases herr
      · by_cases habs : absoluteUrlTest v
        · refine ⟨habs, ?_⟩
          cases hr2 : r2KeyCapture v with
          | none =>
            simp only [resolveMediaUrl, if_neg hv, if_neg hapi,
              if_pos habs, hr2] at herr
            exact Except.noConfusion herr
          | some captured =>
            cases hdec : decodeURIComponent captured with
            | none => exact ⟨captured, rfl, hdec⟩
            | some key =>
              simp only [resolveMediaUrl, if_neg hv, if_neg hapi,
                if_pos habs, hr2, hdec] at herr
              exact Except.noConfusion herr
        · rw [resolveMediaUrl_of_plain hv (by simpa using hapi) (by simpa using habs)] at herr
          cases herr

/-- C10 witness: a bare storage key maps to the proxy URL, and resolving the
proxy URL again is a fixed point. -/
theorem claim_C10_witness :
    resolveMediaUrl (some "k.jpg") = .ok ("/api/media?key=" ++ encodeURIComponent "k.jpg") ∧
    resolveMediaUrl (some ("/api/media?key=" ++ encodeURIComponent "k.jpg")) =
      .ok ("/api/media?key=" ++ encodeURIComponent "k.jpg") := by
  have h4 := claim_C10.2.2.2.1 "k.jpg" (by decide) (by decide) (by decide)
  exact ⟨h4, claim_C10.2.2.2.2.1 _ _ h4⟩

/-! ## Theorems: the asset garbage collector (claim C3) -/

/--
C3 counterexample: the GC's re-check consults only the `projects`
collection, never `PublishedProjectSnapshot`.  In a store where asset 1 is
referenced solely by a snapshot, `deleteMediaAssetsByIds [1]` deletes the
asset row and its blob even though the snapshot still references it —
contradicting the claim that snapshot-referenced assets are never deleted.
-/
theorem claim_C3_counterexample :
    snapshotReferencesAsset snapshotOnlyAssetStore 1 = true ∧
    projectReferencesAsset snapshotOnlyAssetStore 1 = false ∧
    (snapshotOnlyAssetStore.assets.map (·.id)) = [1] ∧
    (deleteMediaAssetsByIds [1] snapshotOnlyAssetStore).assets = [] ∧
    (deleteMediaAssetsByIds [1] snapshotOnlyAssetStore).blobs = [] := by
  decide

/--
C3 (amended): the post-commit garbage collector deletes exactly the
requested assets that have a nonempty storage key and are referenced by no
`Project` document's hero or gallery (archived projects included); in
particular an asset referenced by any live project is never deleted.
References held only by a `PublishedProjectSnapshot` are not consulted and
do not protect an asset.
-/
theorem claim_C3 (ids : List Nat) (s : Store)
    (hnd : (s.assets.map (·.id)).Nodup) :
    (deleteMediaAssetsByIds ids s).assets = s.assets.filter
      (fun a => !(ids.contains a.id && a.storageKey != "" &&
        !projectReferencesAsset s a.id)) ∧
    ∀ a ∈ s.assets, projectReferencesAsset s a.id = true →
      a ∈ (deleteMediaAssetsByIds ids s).assets := by
  have hchar : (deleteMediaAssetsByIds ids s).assets = s.assets.filter
      (fun a => !(ids.contains a.id && a.storageKey != "" &&
        !projectReferencesAsset s a.id)) := by
    unfold deleteMediaAssetsByIds
    by_cases hids : ids.isEmpty
    · have : ids = [] := List.isEmpty_iff.mp hids
      subst this
      simp
    · rw [if_neg hids]
      by_cases hassets : (s.assets.filter (fun a => ids.contains a.id)).isEmpty
      · rw [if_pos hassets]
        have hnone : ∀ a ∈ s.assets, ids.contains a.id = false := by
          intro a ha
          by_contra hc
          have hmem : a ∈ s.assets.filter (fun a => ids.contains a.id) :=
            List.mem_filter.mpr ⟨ha, by simpa using hc⟩
          rw [List.isEmpty_iff.mp hassets] at hmem
          cases hmem
        conv_lhs => rw [show s.assets = s.assets.filter (fun _ => true) by simp]
        apply List.filter_congr
        intro a ha
        have hb : (!(ids.contains a.id && a.storageKey != "" &&
            !projectReferencesAsset s a.id)) = true := by
          have hni : a.id ∉ ids := by simpa using hnone a ha
          simp [hni]
        exact hb.symm
      · rw [if_neg hassets]
        set inUse := fun (aid : Nat) =>
          s.projects.any (fun p =>
            p.hero.assetId = some aid || p.gallery.any (fun g => g.assetId = some aid))
          with hInUse
        have hInUseEq : ∀ aid, inUse aid = projectReferencesAsset s aid := by
          intro aid
          rfl
        set deletable := (s.assets.filter (fun a => ids.contains a.id)).filter
          (fun a => a.storageKey ≠ "" && !inUse a.id) with hdel
        by_cases hdelE : deletable.isEmpty
        · rw [if_pos hdelE]
          have hkeep : ∀ a ∈ s.assets,
              (!(ids.contains a.id && a.storageKey != "" &&
                !projectReferencesAsset s a.id)) = true := by
            intro a ha
            by_contra hc
            simp only [Bool.not_eq_true', Bool.not_eq_eq_eq_not] at hc
            have hc' : (ids.contains a.id && a.storageKey != "" &&
                !projectReferencesAsset s a.id) = true := by
              revert hc
              cases ids.contains a.id && a.storageKey != "" && !projectReferencesAsset s a.id <;>
                simp
            simp only [Bool.and_eq_true] at hc'
            obtain ⟨⟨hin, hkey⟩, href⟩ := hc'
            have hmem : a ∈ deletable := by
              rw [hdel]
              refine List.mem_filter.mpr ⟨List.mem_filter.mpr ⟨ha, hin⟩, ?_⟩
              rw [hInUseEq]
              simp only [Bool.and_eq_true]
              exact ⟨by simpa using hkey, href⟩
            rw [List.isEmpty_iff.mp hdelE] at hmem
            cases hmem
          conv_lhs => rw [show s.assets = s.assets.filter (fun _ => true) by simp]
          apply List.filter_congr
          intro a ha
          exact (hkeep a ha).symm
        · rw [if_neg hdelE]
          apply List.filter_congr
          intro a ha
          congr 1
          show (deletable.map (·.id)).contains a.id =
            (ids.contains a.id && a.storageKey != "" && !projectReferencesAsset s a.id)
          by_cases hc : (ids.contains a.id && a.storageKey != "" &&
              !projectReferencesAsset s a.id) = true
          · rw [hc]
            simp only [Bool.and_eq_true] at hc
            obtain ⟨⟨hin, hkey⟩, href⟩ := hc
            have hmem : a ∈ deletable := by
              rw [hdel]
              refine List.mem_filter.mpr ⟨List.mem_filter.mpr ⟨ha, hin⟩, ?_⟩
              rw [hInUseEq]
              simp only [Bool.and_eq_true]
              exact ⟨by simpa using hkey, href⟩
            have : a.id ∈ deletable.map (·.id) := List.mem_map.mpr ⟨a, hmem, rfl⟩
            simpa using this
          · rw [Bool.eq_false_iff.mpr hc]
            by_contra hcon
            simp only [Bool.not_eq_false] at hcon
            have : a.id ∈ deletable.map (·.id) := by simpa using hcon
            obtain ⟨b, hb, hbid⟩ := List.mem_map.mp this
            have hbassets : b ∈ s.assets := by
              rw [hdel] at hb
              exact (List.mem_filter.mp (List.mem_filter.mp hb).1).1
            have hba : b = a := List.inj_on_of_nodup_map hnd hbassets ha hbid
            subst hba
            apply hc
            rw [hdel] at hb
            obtain ⟨hb1, hb2⟩ := List.mem_filter.mp hb
            obtain ⟨-, hin⟩ := List.mem_filter.mp hb1
            rw [hInUseEq] at hb2
            simp only [Bool.and_eq_true] at hb2 ⊢
            exact ⟨⟨hin, by simpa using hb2.1⟩, hb2.2⟩
  refine ⟨hchar, ?_⟩
  intro a ha href
  rw [hchar]
  refine List.mem_filter.mpr ⟨ha, ?_⟩
  simp [href]

/-- C3 witness: in a store where a live project's gallery references asset 1,
the GC asked to delete asset 1 keeps it. -/
theorem claim_C3_witness :
    (deleteMediaAssetsByIds [1]
      { snapshotOnlyAssetStore with
        projects := [{ fixtureProject with
          gallery := [{ subId := 5, assetId := some 1, src := "k", caption := "c",
                        order := 0 }] }] }).assets =
      snapshotOnlyAssetStore.assets := by
  have h := claim_C3 [1]
    { snapshotOnlyAssetStore with
      projects := [{ fixtureProject with
        gallery := [{ subId := 5, assetId := some 1, src := "k", caption := "c",
                      order := 0 }] }] }
    (by decide)
  rw [h.1]
  decide

/-! ## Theorems: store-frame infrastructure for the persistence paths -/

theorem foldl_frame {α β : Type _} (f : List β × Store → α → List β × Store)
    (hf : ∀ acc x, storeCore (f acc x).2 = storeCore acc.2 ∧ acc.2.nextId ≤ (f acc x).2.nextId) :
    ∀ (items : List α) (init : List β × Store),
      storeCore (items.foldl f init).2 = storeCore init.2 ∧
      init.2.nextId ≤ (items.foldl f init).2.nextId := by
  intro items
  induction items with
  | nil => intro init; exact ⟨rfl, Nat.le_refl _⟩
  | cons x xs ih =>
    intro init
    rw [List.foldl_cons]
    obtain ⟨h1, h2⟩ := ih (f init x)
    obtain ⟨h3, h4⟩ := hf init x
    exact ⟨h1.trans h3, Nat.le_trans h4 h2⟩

theorem ensureCategory_frame {label : String} {s : Store} {cid : Nat} {s' : Store}
    (h : ensureCategory label s = .ok (cid, s')) :
    storeCore s' = storeCore s ∧ s.nextId ≤ s'.nextId := by
  unfold ensureCategory at h
  dsimp only at h
  split at h
  · rw [Except.ok.injEq, Prod.mk.injEq] at h
    obtain ⟨-, h2⟩ := h
    subst h2
    exact ⟨rfl, Nat.le_refl _⟩
  · split at h
    · rw [Except.ok.injEq, Prod.mk.injEq] at h
      obtain ⟨-, h2⟩ := h
      subst h2
      exact ⟨rfl, Nat.le_succ _⟩
    · exact absurd h (by simp)

theorem ensureService_frame {label : String} {s : Store} {cid : Nat} {s' : Store}
    (h : ensureService label s = .ok (cid, s')) :
    storeCore s' = storeCore s ∧ s.nextId ≤ s'.nextId := by
  unfold ensureService at h
  dsimp only at h
  split at h
  · rw [Except.ok.injEq, Prod.mk.injEq] at h
    obtain ⟨-, h2⟩ := h
    subst h2
    exact ⟨rfl, Nat.le_refl _⟩
  · split at h
    · rw [Except.ok.injEq, Prod.mk.injEq] at h
      obtain ⟨-, h2⟩ := h
      subst h2
      exact ⟨rfl, Nat.le_succ _⟩
    · exact absurd h (by simp)

theorem ensureCollaborator_frame {label : String} {s : Store} {cid : Nat} {s' : Store}
    (h : ensureCollaborator label s = .ok (cid, s')) :
    storeCore s' = storeCore s ∧ s.nextId ≤ s'.nextId := by
  unfold ensureCollaborator at h
  dsimp only at h
  split at h
  · rw [Except.ok.injEq, Prod.mk.injEq] at h
    obtain ⟨-, h2⟩ := h
    subst h2
    exact ⟨rfl, Nat.le_refl _⟩
  · split at h
    · rw [Except.ok.injEq, Prod.mk.injEq] at h
      obtain ⟨-, h2⟩ := h
      subst h2
      exact ⟨rfl, Nat.le_succ _⟩
    · exact absurd h (by simp)

theorem ensureMediaAsset_frame (url : String) (kind : MediaKind) (caption : String)
    (width height : Nat) (s : Store) :
    storeCore (ensureMediaAsset url kind caption width height s).2 = storeCore s ∧
    s.nextId ≤ (ensureMediaAsset url kind caption width height s).2.nextId := by
  unfold ensureMediaAsset
  split
  · exact ⟨rfl, Nat.le_refl _⟩
  · split
    · exact ⟨rfl, Nat.le_refl _⟩
    · exact ⟨rfl, Nat.le_succ _⟩

theorem findOrCreateMediaAsset_frame (assetId : Option Nat) (fallbackUrl : String)
    (kind : MediaKind) (caption : String) (width height : Nat) (s : Store) :
    storeCore (findOrCreateMediaAsset assetId fallbackUrl kind caption width height s).2 =
      storeCore s ∧
    s.nextId ≤ (findOrCreateMediaAsset assetId fallbackUrl kind caption width height s).2.nextId := by
  unfold findOrCreateMediaAsset
  cases assetId with
  | none => exact ensureMediaAsset_frame fallbackUrl kind caption width height s
  | some aid =>
    cases h : List.find? (fun a => decide (a.id = aid)) s.assets with
    | some a => simp [h]
    | none =>
      simp only [h]
      exact ensureMediaAsset_frame fallbackUrl kind caption width height s

theorem allocIndexed_frame {α β : Type _} (mk : Nat → Nat → α → β) (items : List α)
    (s : Store) :
    storeCore (allocIndexed mk items s).2 = storeCore s ∧
    s.nextId ≤ (allocIndexed mk items s).2.nextId := by
  unfold allocIndexed
  apply foldl_frame
  intro acc x
  exact ⟨rfl, Nat.le_succ _⟩

theorem bindGalleryAssets_frame (items : List AdminGalleryItem) (s : Store) :
    storeCore (bindGalleryAssets items s).2 = storeCore s ∧
    s.nextId ≤ (bindGalleryAssets items s).2.nextId :=
  foldl_frame _
    (fun acc item => findOrCreateMediaAsset_frame item.assetId item.src .gallery item.caption
      (MEDIA_DIMENSIONS .gallery).1 (MEDIA_DIMENSIONS .gallery).2 acc.2)
    items ([], s)

theorem buildServiceItemsGo_frame :
    ∀ (labels : List String) (acc : List ServiceItem) (s : Store)
      (out : List ServiceItem × Store),
      buildServiceItemsGo labels acc s = .ok out →
      storeCore out.2 = storeCore s ∧ s.nextId ≤ out.2.nextId := by
  intro labels
  induction labels with
  | nil =>
    intro acc s out h
    unfold buildServiceItemsGo at h
    rw [Except.ok.injEq] at h
    subst h
    exact ⟨rfl, Nat.le_refl _⟩
  | cons label rest ih =>
    intro acc s out h
    unfold buildServiceItemsGo at h
    split at h
    · exact absurd h (by simp)
    rename_i serviceId s' hser
    dsimp only at h
    obtain ⟨h1, h2⟩ := ih _ _ _ h
    obtain ⟨g1, g2⟩ := ensureService_frame hser
    exact ⟨h1.trans g1, Nat.le_trans g2 (Nat.le_trans (Nat.le_succ _) h2)⟩

theorem buildServiceItems_frame {labels : List String} {s : Store}
    {items : List ServiceItem} {s' : Store}
    (h : buildServiceItems labels s = .ok (items, s')) :
    storeCore s' = storeCore s ∧ s.nextId ≤ s'.nextId :=
  buildServiceItemsGo_frame labels [] s (items, s') h

theorem buildCollabItemsGo_frame :
    ∀ (labels : List String) (acc : List CollabItem) (s : Store)
      (out : List CollabItem × Store),
      buildCollabItemsGo labels acc s = .ok out →
      storeCore out.2 = storeCore s ∧ s.nextId ≤ out.2.nextId := by
  intro labels
  induction labels with
  | nil =>
    intro acc s out h
    unfold buildCollabItemsGo at h
    rw [Except.ok.injEq] at h
    subst h
    exact ⟨rfl, Nat.le_refl _⟩
  | cons label rest ih =>
    intro acc s out h
    unfold buildCollabItemsGo at h
    split at h
    · exact absurd h (by simp)
    rename_i collaboratorId s' hcol
    dsimp only at h
    obtain ⟨h1, h2⟩ := ih _ _ _ h
    obtain ⟨g1, g2⟩ := ensureCollaborator_frame hcol
    exact ⟨h1.trans g1, Nat.le_trans g2 (Nat.le_trans (Nat.le_succ _) h2)⟩

theorem buildCollabItems_frame {labels : List String} {s : Store}
    {items : List CollabItem} {s' : Store}
    (h : buildCollabItems labels s = .ok (items, s')) :
    storeCore s' = storeCore s ∧ s.nextId ≤ s'.nextId :=
  buildCollabItemsGo_frame labels [] s (items, s') h

theorem buildContentFromPayload_frame (payload : AdminProjectFormPayload) (s : Store)
    {content : ProjectContent} {sOut : Store}
    (h : buildContentFromPayload payload s = .ok (content, sOut)) :
    storeCore sOut = storeCore s ∧ s.nextId ≤ sOut.nextId := by
  unfold buildContentFromPayload at h
  split at h
  · exact absurd h (by simp)
  rename_i categoryId s₁ hcat
  dsimp only at h
  rcases h2 : findOrCreateMediaAsset payload.heroAssetId payload.heroImage .hero
      payload.heroCaption (MEDIA_DIMENSIONS .hero).1 (MEDIA_DIMENSIONS .hero).2 s₁ with
    ⟨heroAsset, s₂⟩
  rw [h2] at h
  dsimp only at h
  rcases h3 : bindGalleryAssets payload.gallery s₂ with ⟨galleryAssets, s₃⟩
  rw [h3] at h
  dsimp only at h
  rcases h4 : allocIndexed (fun subId idx body => DescriptionBlock.mk subId (jsTrim body) idx)
      payload.description s₃ with ⟨blocks, s₄⟩
  rw [h4] at h
  dsimp only at h
  rcases h5 : allocIndexed (fun subId idx (item : AdminMetaItem) =>
      MetaItem.mk subId (jsTrim item.label) (jsTrim item.value) idx) payload.meta s₄ with
    ⟨metaL, s₅⟩
  rw [h5] at h
  dsimp only at h
  split at h
  · exact absurd h (by simp)
  rename_i servicesL s₆ hserv
  split at h
  · exact absurd h (by simp)
  rename_i collabL s₇ hcol
  rcases h8 : allocIndexed (fun subId idx (pair : AdminGalleryItem × Option MediaAsset) =>
      GalleryItem.mk subId (pair.2.map (·.id)) ((pair.2.map (·.storageKey)).getD pair.1.src)
        pair.1.caption idx) (payload.gallery.zip galleryAssets) s₇ with ⟨galleryL, s₈⟩
  rw [h8] at h
  dsimp only at h
  rw [Except.ok.injEq, Prod.mk.injEq] at h
  obtain ⟨-, hout⟩ := h
  subst hout
  have e1 := ensureCategory_frame hcat
  have e2 := findOrCreateMediaAsset_frame payload.heroAssetId payload.heroImage .hero
    payload.heroCaption (MEDIA_DIMENSIONS .hero).1 (MEDIA_DIMENSIONS .hero).2 s₁
  rw [h2] at e2
  have e3 := bindGalleryAssets_frame payload.gallery s₂
  rw [h3] at e3
  have e4 := allocIndexed_frame
    (fun subId idx body => DescriptionBlock.mk subId (jsTrim body) idx) payload.description s₃
  rw [h4] at e4
  have e5 := allocIndexed_frame (fun subId idx (item : AdminMetaItem) =>
    MetaItem.mk subId (jsTrim item.label) (jsTrim item.value) idx) payload.meta s₄
  rw [h5] at e5
  have e6 := buildServiceItems_frame hserv
  have e7 := buildCollabItems_frame hcol
  have e8 := allocIndexed_frame (fun subId idx (pair : AdminGalleryItem × Option MediaAsset) =>
    GalleryItem.mk subId (pair.2.map (·.id)) ((pair.2.map (·.storageKey)).getD pair.1.src)
      pair.1.caption idx) (payload.gallery.zip galleryAssets) s₇
  rw [h8] at e8
  constructor
  · exact (((((((e8.1.trans e7.1).trans e6.1).trans e5.1).trans e4.1).trans e3.1).trans
      e2.1).trans e1.1)
  · exact Nat.le_trans e1.2 (Nat.le_trans e2.2 (Nat.le_trans e3.2 (Nat.le_trans e4.2
      (Nat.le_trans e5.2 (Nat.le_trans e6.2 (Nat.le_trans e7.2 e8.2))))))

theorem deleteMediaAssetsByIds_frame (ids : List Nat) (s : Store) :
    (deleteMediaAssetsByIds ids s).projects = s.projects ∧
    (deleteMediaAssetsByIds ids s).snapshots = s.snapshots ∧
    (deleteMediaAssetsByIds ids s).versions = s.versions ∧
    (deleteMediaAssetsByIds ids s).history = s.history := by
  unfold deleteMediaAssetsByIds
  dsimp only
  split
  · exact ⟨rfl, rfl, rfl, rfl⟩
  · split
    · exact ⟨rfl, rfl, rfl, rfl⟩
    · split
      · exact ⟨rfl, rfl, rfl, rfl⟩
      · exact ⟨rfl, rfl, rfl, rfl⟩

theorem upsertPublishedProject_frame (proj : Project) (now : Nat) (st : Store) :
    (upsertPublishedProject proj now st).projects = st.projects ∧
    (upsertPublishedProject proj now st).versions = st.versions ∧
    (upsertPublishedProject proj now st).history = st.history := by
  unfold upsertPublishedProject
  split <;> exact ⟨rfl, rfl, rfl⟩

theorem upsertPublishedProject_snapshots (proj : Project) (now : Nat) (st : Store) :
    (upsertPublishedProject proj now st).snapshots =
      if st.snapshots.any (fun sn => sn.projectId = proj.id) then
        updateFirst (fun sn => sn.projectId = proj.id)
          (fun _ => projectToPublishedPayload proj now) st.snapshots
      else st.snapshots ++ [projectToPublishedPayload proj now] := by
  unfold upsertPublishedProject
  split
  · rfl
  · rfl

theorem createHistoryEntry_ok_of_mem {s : Store} {pid : Nat} {action : String}
    {f t : Option ProjectStatus} {sv : Option Nat}
    (h : projectHistoryActions.contains action = true) :
    createHistoryEntry s pid action f t sv = .ok { s with history := s.history ++
      [{ projectId := pid, action := action, actorId := some SYSTEM_USER_ID,
         fromStatus := f, toStatus := t, snapshotVersion := sv }] } := by
  unfold createHistoryEntry
  rw [if_pos h]

theorem recordVersion_ok_of_mem {s : Store} {project : Project} {source : String}
    {published : Bool} (h : projectVersionSources.contains source = true) :
    recordVersion s project source published = .ok { s with versions := s.versions ++
      [{ projectId := project.id, version := project.revision, status := project.status,
         source := source, payload := project, createdBy := some SYSTEM_USER_ID,
         published := published }] } := by
  unfold recordVersion
  rw [if_pos h]

theorem applyPersistUpdate_revision (e : Project) (pl : AdminProjectFormPayload)
    (sl : String) (c : ProjectContent) (st : ProjectStatus) (now : Nat) :
    (applyPersistUpdate e pl sl c st now).revision = e.revision + 1 := rfl

theorem applyPersistUpdate_id (e : Project) (pl : AdminProjectFormPayload)
    (sl : String) (c : ProjectContent) (st : ProjectStatus) (now : Nat) :
    (applyPersistUpdate e pl sl c st now).id = e.id := rfl

theorem applyPersistUpdate_status (e : Project) (pl : AdminProjectFormPayload)
    (sl : String) (c : ProjectContent) (st : ProjectStatus) (now : Nat) :
    (applyPersistUpdate e pl sl c st now).status = st := rfl

theorem persist_ok_decomp {s : Store} {pid : Nat} {payload : AdminProjectFormPayload}
    {status : ProjectStatus} {now : Nat} {s' : Store} {p : Project}
    (hrun : persistProjectFromPayload s pid payload status now = .ok (s', p)) :
    ∃ existing slug content s₁,
      findActiveProject s pid = some existing ∧
      buildContentFromPayload payload s = .ok (content, s₁) ∧
      p = applyPersistUpdate existing payload slug content status now ∧
      projectUpdateSchemaOk p = true ∧
      s'.projects = updateFirst (fun q => q.id = pid && q.deletedAt = none) (fun _ => p)
        s.projects ∧
      s'.snapshots = (if status = .published then
          (if s.snapshots.any (fun sn => sn.projectId = p.id) then
            updateFirst (fun sn => sn.projectId = p.id)
              (fun _ => projectToPublishedPayload p now) s.snapshots
          else s.snapshots ++ [projectToPublishedPayload p now])
        else s.snapshots) ∧
      s'.versions = s.versions ++
        [{ projectId := p.id, version := p.revision, status := p.status,
           source := if status = .published then "publish" else "manual-save",
           payload := p, createdBy := some SYSTEM_USER_ID,
           published := decide (status = .published) }] ∧
      s'.history = s.history ++
        [{ projectId := p.id,
           action := if status = .published then "published" else "saved",
           actorId := some SYSTEM_USER_ID, fromStatus := some existing.status,
           toStatus := some status, snapshotVersion := some p.revision }] := by
  unfold persistProjectFromPayload at hrun
  split at hrun
  · exact absurd hrun (by simp)
  split at hrun
  · exact absurd hrun (by simp)
  rename_i existing hfind
  dsimp only at hrun
  split at hrun
  · exact absurd hrun (by simp)
  rename_i slug hslug
  split at hrun
  · exact absurd hrun (by simp)
  rename_i content s₁ hbc
  split at hrun
  · rename_i hschema
    refine ⟨existing, slug, content, s₁, hfind, hbc, ?_⟩
    have hcore := (buildContentFromPayload_frame payload s hbc).1
    have hproj : s₁.projects = s.projects := congrArg (·.1) hcore
    have hsnap : s₁.snapshots = s.snapshots := congrArg (·.2.1) hcore
    have hvers : s₁.versions = s.versions := congrArg (·.2.2.1) hcore
    have hhist : s₁.history = s.history := congrArg (·.2.2.2.1) hcore
    by_cases hst : status = .published
    · simp only [if_pos hst] at hrun ⊢
      rw [createHistoryEntry_ok_of_mem (by decide)] at hrun
      dsimp only at hrun
      rw [recordVersion_ok_of_mem (by decide)] at hrun
      dsimp only at hrun
      split at hrun <;>
      · rw [Except.ok.injEq, Prod.mk.injEq] at hrun
        obtain ⟨hs', hpp⟩ := hrun
        subst hs'
        subst hpp
        refine ⟨rfl, hschema, ?_, ?_, ?_, ?_⟩ <;>
          simp [deleteMediaAssetsByIds_frame, upsertPublishedProject_frame,
            upsertPublishedProject_snapshots, hproj, hsnap, hvers, hhist]
    · simp only [if_neg hst] at hrun ⊢
      rw [createHistoryEntry_ok_of_mem (by decide)] at hrun
      dsimp only at hrun
      rw [recordVersion_ok_of_mem (by decide)] at hrun
      dsimp only at hrun
      split at hrun <;>
      · rw [Except.ok.injEq, Prod.mk.injEq] at hrun
        obtain ⟨hs', hpp⟩ := hrun
        subst hs'
        subst hpp
        refine ⟨rfl, hschema, ?_, ?_, ?_, ?_⟩ <;>
          simp [deleteMediaAssetsByIds_frame, hproj, hsnap, hvers, hhist]
  · exact absurd hrun (by simp)

/-! ## Theorems: revision counter and version rows (claim C4) -/

/--
C4: every committed `saveAdminProject` or `publishAdminProject` mutation on
an existing non-deleted project increments the project's `revision` by
exactly one, and the same transaction appends exactly one `ProjectVersion`
row whose `version` field equals the post-increment revision (its payload
being the updated project itself).
-/
theorem claim_C4 {s : Store} {pid : Nat} {payload : AdminProjectFormPayload}
    {now : Nat} {s' : Store} {p p₀ : Project}
    (hfind : findActiveProject s pid = some p₀)
    (hrun : saveAdminProject s pid payload now = .ok (s', p) ∨
            publishAdminProject s pid payload now = .ok (s', p)) :
    p.revision = p₀.revision + 1 ∧
    ∃ row : ProjectVersionRow,
      s'.versions = s.versions ++ [row] ∧
      row.version = p.revision ∧ row.projectId = p.id ∧ row.payload = p := by
  have main : ∀ status : ProjectStatus,
      persistProjectFromPayload s pid payload status now = .ok (s', p) →
      p.revision = p₀.revision + 1 ∧
      ∃ row : ProjectVersionRow,
        s'.versions = s.versions ++ [row] ∧
        row.version = p.revision ∧ row.projectId = p.id ∧ row.payload = p := by
    intro status h
    obtain ⟨existing, slug, content, s₁, hfind', -, hp, -, -, -, hvers, -⟩ :=
      persist_ok_decomp h
    rw [hfind] at hfind'
    injection hfind' with he
    subst he
    subst hp
    exact ⟨rfl, _, hvers, rfl, rfl, rfl⟩
  rcases hrun with h | h
  · exact main .draft h
  · exact main .published h

/-- C4 witness: saving the draft fixture bumps its revision from 1 to 2 and
writes the single matching version row. -/
theorem claim_C4_witness :
    ∃ s' p, saveAdminProject fixtureStore 1 loosePayload 7 = .ok (s', p) ∧
      p.revision = fixtureProject.revision + 1 ∧
      ∃ row : ProjectVersionRow,
        s'.versions = fixtureStore.versions ++ [row] ∧
        row.version = p.revision ∧ row.projectId = p.id ∧ row.payload = p := by
  have hok : (saveAdminProject fixtureStore 1 loosePayload 7).isOk = true := by decide
  match h : saveAdminProject fixtureStore 1 loosePayload 7 with
  | .error e =>
    rw [h] at hok
    exact Bool.noConfusion hok
  | .ok (s', p) =>
    obtain ⟨hrev, row, hv⟩ := claim_C4 (by rfl) (Or.inl h)
    exact ⟨s', p, rfl, hrev, row, hv⟩

/-! ## Theorems: contiguous order sequences (claim C9) -/

theorem foldl_orders {α β : Type _} (getOrder : β → Nat)
    (f : List β × Store → α → List β × Store)
    (hf : ∀ acc item, ∃ b, (f acc item).1 = acc.1 ++ [b] ∧ getOrder b = acc.1.length) :
    ∀ (items : List α) (acc : List β × Store),
      acc.1.map getOrder = List.range acc.1.length →
      ((items.foldl f acc).1).map getOrder = List.range ((items.foldl f acc).1).length := by
  intro items
  induction items with
  | nil => intro acc h; simpa using h
  | cons a as ih =>
    intro acc h
    simp only [List.foldl_cons]
    apply ih
    obtain ⟨b, hb, hob⟩ := hf acc a
    rw [hb]
    simp [List.range_succ, h, hob]

theorem foldl_orders_nil {α β : Type _} (getOrder : β → Nat)
    (f : List β × Store → α → List β × Store)
    (hf : ∀ acc item, ∃ b, (f acc item).1 = acc.1 ++ [b] ∧ getOrder b = acc.1.length)
    (items : List α) (s : Store) :
    contiguousOrders getOrder (items.foldl f ([], s)).1 := by
  unfold contiguousOrders
  exact foldl_orders getOrder f hf items ([], s) (by simp)

theorem allocIndexed_orders {α β : Type _} (getOrder : β → Nat) (mk : Nat → Nat → α → β)
    (hmk : ∀ i n a, getOrder (mk i n a) = n) (items : List α) (s : Store) :
    contiguousOrders getOrder (allocIndexed mk items s).1 := by
  unfold allocIndexed
  exact foldl_orders_nil getOrder _ (fun acc item => ⟨_, rfl, hmk _ _ _⟩) items s

theorem buildServiceItemsGo_orders :
    ∀ (labels : List String) (acc : List ServiceItem) (s : Store)
      (out : List ServiceItem × Store),
      buildServiceItemsGo labels acc s = .ok out →
      acc.map (·.order) = List.range acc.length →
      out.1.map (·.order) = List.range out.1.length := by
  intro labels
  induction labels with
  | nil =>
    intro acc s out h hacc
    unfold buildServiceItemsGo at h
    rw [Except.ok.injEq] at h
    subst h
    exact hacc
  | cons label rest ih =>
    intro acc s out h hacc
    unfold buildServiceItemsGo at h
    split at h
    · exact absurd h (by simp)
    rename_i serviceId s' hser
    dsimp only at h
    apply ih _ _ _ h
    simp [List.range_succ, hacc]

theorem buildServiceItems_orders {labels : List String} {s : Store}
    {items : List ServiceItem} {s' : Store}
    (h : buildServiceItems labels s = .ok (items, s')) :
    contiguousOrders (·.order) items := by
  unfold contiguousOrders
  exact buildServiceItemsGo_orders labels [] s (items, s') h (by simp)

theorem buildCollabItemsGo_orders :
    ∀ (labels : List String) (acc : List CollabItem) (s : Store)
      (out : List CollabItem × Store),
      buildCollabItemsGo labels acc s = .ok out →
      acc.map (·.order) = List.range acc.length →
      out.1.map (·.order) = List.range out.1.length := by
  intro labels
  induction labels with
  | nil =>
    intro acc s out h hacc
    unfold buildCollabItemsGo at h
    rw [Except.ok.injEq] at h
    subst h
    exact hacc
  | cons label rest ih =>
    intro acc s out h hacc
    unfold buildCollabItemsGo at h
    split at h
    · exact absurd h (by simp)
    rename_i collaboratorId s' hcol
    dsimp only at h
    apply ih _ _ _ h
    simp [List.range_succ, hacc]

theorem buildCollabItems_orders {labels : List String} {s : Store}
    {items : List CollabItem} {s' : Store}
    (h : buildCollabItems labels s = .ok (items, s')) :
    contiguousOrders (·.order) items := by
  unfold contiguousOrders
  exact buildCollabItemsGo_orders labels [] s (items, s') h (by simp)

theorem resequenceCloned_orders {α : Type _} (getOrder : α → Nat)
    (set : α → Nat → Nat → α) (hset : ∀ a i n, getOrder (set a i n) = n)
    (items : List α) (s : Store) :
    contiguousOrders getOrder (resequenceCloned getOrder set items s).1 := by
  unfold resequenceCloned
  exact foldl_orders_nil _ _ (fun acc item => ⟨_, rfl, hset _ _ _⟩) _ s

theorem buildContent_orders (payload : AdminProjectFormPayload) (s : Store)
    {content : ProjectContent} {sOut : Store}
    (h : buildContentFromPayload payload s = .ok (content, sOut)) :
    contiguousOrders (·.order) content.descriptionBlocks ∧
    contiguousOrders (·.order) content.meta ∧
    contiguousOrders (·.order) content.services ∧
    contiguousOrders (·.order) content.collaborators ∧
    contiguousOrders (·.order) content.gallery := by
  unfold buildContentFromPayload at h
  split at h
  · exact absurd h (by simp)
  rename_i categoryId s₁ hcat
  dsimp only at h
  split at h
  · exact absurd h (by simp)
  rename_i servicesL s₆ hserv
  split at h
  · exact absurd h (by simp)
  rename_i collabL s₇ hcol
  rw [Except.ok.injEq, Prod.mk.injEq] at h
  obtain ⟨hc, -⟩ := h
  subst hc
  refine ⟨?_, ?_, ?_, ?_, ?_⟩
  · exact allocIndexed_orders _ _ (fun i n a => rfl) _ _
  · exact allocIndexed_orders _ _ (fun i n a => rfl) _ _
  · exact buildServiceItems_orders hserv
  · exact buildCollabItems_orders hcol
  · exact allocIndexed_orders _ _ (fun i n a => rfl) _ _

/--
C9: after every committed mutation that rebuilds or clones a project
(`saveAdminProject`, `publishAdminProject`, `createAdminProject`,
`duplicateAdminProject`), each of the returned project's ordered sub-lists
(description blocks, meta rows, services, collaborators, gallery) carries
`order` values forming exactly the contiguous sequence `0..n-1` in display
order; in particular `duplicateAdminProject` re-sequences every cloned
sub-list.
-/
theorem claim_C9 {s : Store} {now : Nat} {s' : Store} {p : Project}
    (hrun : (∃ pid payload, saveAdminProject s pid payload now = .ok (s', p)) ∨
            (∃ pid payload, publishAdminProject s pid payload now = .ok (s', p)) ∨
            (∃ currentYear, createAdminProject s now currentYear = .ok (s', p)) ∨
            (∃ pid, duplicateAdminProject s pid now = .ok (s', p))) :
    projectOrdersContiguous p := by
  have persistCase : ∀ pid payload status,
      persistProjectFromPayload s pid payload status now = .ok (s', p) →
      projectOrdersContiguous p := by
    intro pid payload status h
    obtain ⟨existing, slug, content, s₁, -, hbc, hp, -⟩ := persist_ok_decomp h
    subst hp
    exact buildContent_orders payload s hbc
  obtain h | h | h | h := hrun
  · obtain ⟨pid, payload, h⟩ := h
    exact persistCase pid payload .draft h
  · obtain ⟨pid, payload, h⟩ := h
    exact persistCase pid payload .published h
  · obtain ⟨year, h⟩ := h
    unfold createAdminProject at h
    dsimp only at h
    split at h
    · exact absurd h (by simp)
    rename_i slug hslug
    split at h
    · exact absurd h (by simp)
    rename_i content s₁ hbc
    rw [createHistoryEntry_ok_of_mem (by decide)] at h
    dsimp only at h
    rw [recordVersion_ok_of_mem (by decide)] at h
    dsimp only at h
    rw [Except.ok.injEq, Prod.mk.injEq] at h
    obtain ⟨-, hp⟩ := h
    subst hp
    exact buildContent_orders (placeholderPayload slug year) s hbc
  · obtain ⟨pid, h⟩ := h
    unfold duplicateAdminProject at h
    split at h
    · exact absurd h (by simp)
    rename_i project hfind
    dsimp only at h
    split at h
    · exact absurd h (by simp)
    rename_i slug hslug
    rw [createHistoryEntry_ok_of_mem (by decide)] at h
    dsimp only at h
    rw [recordVersion_ok_of_mem (by decide)] at h
    dsimp only at h
    rw [Except.ok.injEq, Prod.mk.injEq] at h
    obtain ⟨-, hp⟩ := h
    subst hp
    exact ⟨resequenceCloned_orders _ _ (fun a i n => rfl) _ _,
           resequenceCloned_orders _ _ (fun a i n => rfl) _ _,
           resequenceCloned_orders _ _ (fun a i n => rfl) _ _,
           resequenceCloned_orders _ _ (fun a i n => rfl) _ _,
           resequenceCloned_orders _ _ (fun a i n => rfl) _ _⟩

/-- C9 witness: the project returned by saving the draft fixture has every
ordered sub-list contiguously ordered. -/
theorem claim_C9_witness :
    ∃ s' p, saveAdminProject fixtureStore 1 loosePayload 7 = .ok (s', p) ∧
      projectOrdersContiguous p := by
  have hok : (saveAdminProject fixtureStore 1 loosePayload 7).isOk = true := by decide
  match h : saveAdminProject fixtureStore 1 loosePayload 7 with
  | .error e =>
    rw [h] at hok
    exact Bool.noConfusion hok
  | .ok (s', p) =>
    exact ⟨s', p, rfl, claim_C9 (Or.inl ⟨1, loosePayload, h⟩)⟩

/-! ## Theorems: the published-iff-snapshot invariant (claims C1, C2) -/

theorem mem_updateFirst_nodup {α : Type _} (key : α → Nat) (k : Nat) {pr : α → Bool}
    {f : α → α} :
    ∀ {l : List α} {x : α}, (l.map key).Nodup →
      (∀ y, pr y = true → key y = k) →
      x ∈ updateFirst pr f l →
      (∃ y ∈ l, pr y = true ∧ x = f y) ∨ (x ∈ l ∧ pr x = false) := by
  intro l
  induction l with
  | nil => intro x _ _ hx; simp [updateFirst] at hx
  | cons a t ih =>
    intro x hnd hpr hx
    rw [List.map_cons, List.nodup_cons] at hnd
    simp only [updateFirst] at hx
    cases ha : pr a
    · rw [ha, if_neg (by simp)] at hx
      rcases List.mem_cons.mp hx with h | h
      · subst h
        exact Or.inr ⟨List.mem_cons_self _ _, ha⟩
      · rcases ih hnd.2 hpr h with ⟨y, hy, hpy, hxy⟩ | ⟨hm, hp⟩
        · exact Or.inl ⟨y, List.mem_cons_of_mem a hy, hpy, hxy⟩
        · exact Or.inr ⟨List.mem_cons_of_mem a hm, hp⟩
    · rw [ha, if_pos rfl] at hx
      rcases List.mem_cons.mp hx with h | h
      · exact Or.inl ⟨a, List.mem_cons_self a t, ha, h⟩
      · refine Or.inr ⟨List.mem_cons_of_mem a h, ?_⟩
        cases hpx : pr x
        · rfl
        · exfalso
          apply hnd.1
          rw [hpr a ha, ← hpr x hpx]
          exact List.mem_map.mpr ⟨x, h, rfl⟩

theorem updateFirst_mem_of_find {α : Type _} {pr : α → Bool} {f : α → α} :
    ∀ {l : List α} {y : α}, l.find? pr = some y → f y ∈ updateFirst pr f l := by
  intro l
  induction l with
  | nil => intro y h; simp at h
  | cons a t ih =>
    intro y h
    rw [List.find?_cons] at h
    simp only [updateFirst]
    cases ha : pr a
    · rw [ha] at h
      rw [if_neg (by simp)]
      exact List.mem_cons_of_mem a (ih h)
    · rw [ha] at h
      rw [if_pos rfl]
      injection h with h
      subst h
      exact List.mem_cons_self _ _

theorem any_updateFirst_eq {α : Type _} (pr q : α → Bool) (f : α → α)
    (h : ∀ y, pr y = true → q (f y) = q y) :
    ∀ l : List α, (updateFirst pr f l).any q = l.any q := by
  intro l
  induction l with
  | nil => rfl
  | cons a t ih =>
    simp only [updateFirst]
    cases ha : pr a
    · rw [if_neg (by simp)]
      simp [List.any_cons, ih]
    · rw [if_pos rfl]
      simp [List.any_cons, h a ha]

theorem any_removeFirst_of_ne {α : Type _} (pr q : α → Bool)
    (h : ∀ y, pr y = true → q y = false) :
    ∀ l : List α, (removeFirst pr l).any q = l.any q := by
  intro l
  induction l with
  | nil => rfl
  | cons a t ih =>
    simp only [removeFirst]
    cases ha : pr a
    · rw [if_neg (by simp)]
      simp [List.any_cons, ih]
    · rw [if_pos rfl]
      simp [List.any_cons, h a ha]

theorem filter_key_length_le_one {α : Type _} (key : α → Nat) (k : Nat) :
    ∀ l : List α, (l.map key).Nodup →
      (l.filter (fun x => key x = k)).length ≤ 1 := by
  intro l
  induction l with
  | nil => intro; simp
  | cons a t ih =>
    intro hnd
    rw [List.map_cons, List.nodup_cons] at hnd
    by_cases hak : key a = k
    · rw [List.filter_cons_of_pos (by simpa using hak)]
      simp only [List.length_cons]
      have ht : t.filter (fun x => key x = k) = [] := by
        rw [List.filter_eq_nil]
        intro x hx
        simp only [decide_eq_true_eq]
        intro hxk
        apply hnd.1
        rw [hak, ← hxk]
        exact List.mem_map.mpr ⟨x, hx, rfl⟩
      rw [ht]
      simp
    · rw [List.filter_cons_of_neg (by simpa using hak)]
      exact ih hnd.2

theorem any_removeFirst_self {α : Type _} (pr : α → Bool) :
    ∀ l : List α, (l.filter pr).length ≤ 1 →
      (removeFirst pr l).any pr = false := by
  intro l
  induction l with
  | nil => intro; rfl
  | cons a t ih =>
    intro hle
    simp only [removeFirst]
    cases ha : pr a
    · rw [List.filter_cons_of_neg (by simp [ha])] at hle
      rw [if_neg (by simp)]
      simp [List.any_cons, ha, ih hle]
    · rw [List.filter_cons_of_pos (by simp [ha])] at hle
      simp only [List.length_cons] at hle
      rw [if_pos rfl]
      rw [List.any_eq_false]
      intro x hx
      have ht : t.filter pr = [] := List.eq_nil_of_length_eq_zero (by omega)
      have := List.filter_eq_nil.mp ht x hx
      simpa using this

theorem id_ne_of_unmatched {l : List Project} {pid : Nat} {q existing : Project}
    (hnd : (l.map (fun r => r.id)).Nodup)
    (hfind : l.find? (fun r => r.id = pid && r.deletedAt = none) = some existing)
    (hq : q ∈ l)
    (hpr : (decide (q.id = pid) && decide (q.deletedAt = none)) = false) :
    q.id ≠ pid := by
  intro hid
  have hmem := List.mem_of_find?_eq_some hfind
  have hprop := List.find?_some hfind
  simp only [Bool.and_eq_true, decide_eq_true_eq] at hprop
  have heq : q = existing :=
    List.inj_on_of_nodup_map hnd hq hmem (by rw [hid, hprop.1])
  subst heq
  rw [hid, hprop.2] at hpr
  simp at hpr

/--
C1 (corrected): the published-iff-snapshot equivalence survives
`createAdminProject`, `publishAdminProject` and `deleteAdminProject`, but
`saveAdminProject` is NOT invariant-preserving in general: a committed save
always demotes the project to `draft` while leaving the snapshot collection
untouched, so afterwards the invariant holds exactly when no snapshot for
the saved project existed before — in particular it breaks for a project
that was `published` going in (the scenario of the counterexample).
-/
theorem claim_C1 {s : Store} {now : Nat} {s' : Store} {p : Project}
    (hwf : WellFormedStore s) (hinv : statusSnapshotInvariant s) :
    (∀ currentYear, createAdminProject s now currentYear = .ok (s', p) →
      statusSnapshotInvariant s') ∧
    (∀ pid payload, publishAdminProject s pid payload now = .ok (s', p) →
      statusSnapshotInvariant s') ∧
    (∀ pid, deleteAdminProject s pid now = .ok (s', p) →
      statusSnapshotInvariant s') ∧
    (∀ pid payload, saveAdminProject s pid payload now = .ok (s', p) →
      p.status = .draft ∧ s'.snapshots = s.snapshots ∧
      (statusSnapshotInvariant s' ↔ snapshotExistsFor s pid = false)) := by
  refine ⟨?_, ?_, ?_, ?_⟩
  · -- create
    intro year h
    unfold createAdminProject at h
    dsimp only at h
    split at h
    · exact absurd h (by simp)
    rename_i slug hslug
    split at h
    · exact absurd h (by simp)
    rename_i content s₁ hbc
    rw [createHistoryEntry_ok_of_mem (by decide)] at h
    dsimp only at h
    rw [recordVersion_ok_of_mem (by decide)] at h
    dsimp only at h
    rw [Except.ok.injEq, Prod.mk.injEq] at h
    obtain ⟨hs', hp⟩ := h
    have hframe := (buildContentFromPayload_frame (placeholderPayload slug year) s hbc).1
    have hproj : s₁.projects = s.projects := congrArg (·.1) hframe
    have hsnap : s₁.snapshots = s.snapshots := congrArg (·.2.1) hframe
    have hnext : s.nextId ≤ s₁.nextId :=
      (buildContentFromPayload_frame (placeholderPayload slug year) s hbc).2
    have hprojects : s'.projects = s.projects ++ [p] := by
      rw [← hs', ← hp]
      dsimp only [freshId]
      rw [hproj]
    have hsnapshots : s'.snapshots = s.snapshots := by
      rw [← hs']
      dsimp only [freshId]
      rw [hsnap]
    have hpstatus : p.status = ProjectStatus.draft := by
      rw [← hp]
    have hpidfresh : ∀ sn ∈ s.snapshots, sn.projectId ≠ p.id := by
      intro sn hsn
      have h1 := hwf.2.1 sn hsn
      have h2 : p.id = s₁.nextId := by
        rw [← hp]
        rfl
      rw [h2]
      omega
    intro q hq
    rw [hprojects] at hq
    rcases List.mem_append.mp hq with hq | hq
    · have hiff := hinv q hq
      unfold snapshotExistsFor at hiff ⊢
      rw [hsnapshots]
      exact hiff
    · rw [List.mem_singleton] at hq
      rw [hq]
      refine iff_of_false ?_ ?_
      · rw [hpstatus]; decide
      · unfold snapshotExistsFor
        rw [hsnapshots]
        intro hc
        rw [List.any_eq_true] at hc
        obtain ⟨sn, hsn, hid⟩ := hc
        exact hpidfresh sn hsn (by simpa using hid)
  · -- publish
    intro pid payload h
    obtain ⟨existing, slug, content, s₁, hfind, -, hp, -, hprojects, hsnapshots, -, -⟩ :=
      persist_ok_decomp h
    rw [if_pos rfl] at hsnapshots
    unfold findActiveProject at hfind
    have hexid : existing.id = pid := by
      have := List.find?_some hfind
      simp only [Bool.and_eq_true, decide_eq_true_eq] at this
      exact this.1
    have hpid2 : p.id = pid := by rw [hp]; exact hexid
    have hstp : p.status = ProjectStatus.published := by rw [hp]; rfl
    intro q hq
    rw [hprojects] at hq
    rcases mem_updateFirst_nodup (fun r => r.id) pid hwf.2.2.1
        (fun y hy => by simp only [Bool.and_eq_true, decide_eq_true_eq] at hy; exact hy.1)
        hq with ⟨y, hy, hpy, hqp⟩ | ⟨hq', hprq⟩
    · have hqp' : q = p := hqp
      rw [hqp']
      refine iff_of_true hstp ?_
      unfold snapshotExistsFor
      rw [hsnapshots]
      by_cases hany : s.snapshots.any (fun sn => sn.projectId = p.id) = true
      · rw [if_pos hany, any_updateFirst_eq]
        · exact hany
        · intro y2 hy2
          simp only [decide_eq_true_eq] at hy2
          simp [projectToPublishedPayload, hy2]
      · rw [if_neg hany, List.any_append]
        simp [projectToPublishedPayload]
    · have hqne : q.id ≠ pid := id_ne_of_unmatched hwf.2.2.1 hfind hq' hprq
      have hiff := hinv q hq'
      unfold snapshotExistsFor at hiff ⊢
      rw [hsnapshots]
      by_cases hany : s.snapshots.any (fun sn => sn.projectId = p.id) = true
      · rw [if_pos hany, any_updateFirst_eq]
        · exact hiff
        · intro y2 hy2
          simp only [decide_eq_true_eq] at hy2
          simp [projectToPublishedPayload, hy2, hpid2]
      · rw [if_neg hany, List.any_append]
        have hne2 : ¬((projectToPublishedPayload p now).projectId = q.id) := by
          show ¬(p.id = q.id)
          rw [hpid2]
          exact fun hh => hqne hh.symm
        simpa [List.any_cons, List.any_nil, decide_eq_false hne2] using hiff
  · -- delete
    intro pid h
    unfold deleteAdminProject at h
    split at h
    · exact absurd h (by simp)
    rename_i project hfind
    unfold findActiveProject at hfind
    have hexid : project.id = pid := by
      have := List.find?_some hfind
      simp only [Bool.and_eq_true, decide_eq_true_eq] at this
      exact this.1
    dsimp only at h
    rw [createHistoryEntry_ok_of_mem (by decide)] at h
    dsimp only at h
    split at h
    · rw [Except.ok.injEq, Prod.mk.injEq] at h
      obtain ⟨hs', hp⟩ := h
      have hparch : p.status = ProjectStatus.archived := by rw [← hp]
      have hpidp : p.id = project.id := by rw [← hp]
      have hprojects : s'.projects =
          updateFirst (fun r => r.id = pid && r.deletedAt = none) (fun _ => p) s.projects := by
        rw [← hs', ← hp]
      have hsnapshots : s'.snapshots =
          removeFirst (fun sn => sn.projectId = project.id) s.snapshots := by
        rw [← hs']
      intro q hq
      rw [hprojects] at hq
      rcases mem_updateFirst_nodup (fun r => r.id) pid hwf.2.2.1
          (fun y hy => by simp only [Bool.and_eq_true, decide_eq_true_eq] at hy; exact hy.1)
          hq with ⟨y, hy, hpy, hqp⟩ | ⟨hq', hprq⟩
      · have hqp' : q = p := hqp
        rw [hqp']
        refine iff_of_false ?_ ?_
        · intro hc
          rw [hparch] at hc
          exact ProjectStatus.noConfusion hc
        · unfold snapshotExistsFor
          rw [hsnapshots, hpidp]
          intro hc
          have hle : (s.snapshots.filter (fun sn => sn.projectId = project.id)).length ≤ 1 :=
            filter_key_length_le_one (fun sn => sn.projectId) project.id s.snapshots hwf.2.2.2
          have hz : (removeFirst (fun sn => sn.projectId = project.id) s.snapshots).any
              (fun sn => sn.projectId = project.id) = false :=
            any_removeFirst_self _ _ hle
          rw [hz] at hc
          exact Bool.noConfusion hc
      · have hqne : q.id ≠ pid := id_ne_of_unmatched hwf.2.2.1 hfind hq' hprq
        have hiff := hinv q hq'
        unfold snapshotExistsFor at hiff ⊢
        rw [hsnapshots]
        rw [any_removeFirst_of_ne]
        · exact hiff
        · intro y2 hy2
          simp only [decide_eq_true_eq] at hy2
          simp only [hy2, hexid]
          exact decide_eq_false fun hh => hqne hh.symm
    · rw [Except.ok.injEq, Prod.mk.injEq] at h
      obtain ⟨hs', hp⟩ := h
      have hparch : p.status = ProjectStatus.archived := by rw [← hp]
      have hpidp : p.id = project.id := by rw [← hp]
      have hprojects : s'.projects =
          updateFirst (fun r => r.id = pid && r.deletedAt = none) (fun _ => p) s.projects := by
        rw [← hs', ← hp]
        rw [(deleteMediaAssetsByIds_frame _ _).1]
      have hsnapshots : s'.snapshots =
          removeFirst (fun sn => sn.projectId = project.id) s.snapshots := by
        rw [← hs']
        rw [(deleteMediaAssetsByIds_frame _ _).2.1]
      intro q hq
      rw [hprojects] at hq
      rcases mem_updateFirst_nodup (fun r => r.id) pid hwf.2.2.1
          (fun y hy => by simp only [Bool.and_eq_true, decide_eq_true_eq] at hy; exact hy.1)
          hq with ⟨y, hy, hpy, hqp⟩ | ⟨hq', hprq⟩
      · have hqp' : q = p := hqp
        rw [hqp']
        refine iff_of_false ?_ ?_
        · intro hc
          rw [hparch] at hc
          exact ProjectStatus.noConfusion hc
        · unfold snapshotExistsFor
          rw [hsnapshots, hpidp]
          intro hc
          have hle : (s.snapshots.filter (fun sn => sn.projectId = project.id)).length ≤ 1 :=
            filter_key_length_le_one (fun sn => sn.projectId) project.id s.snapshots hwf.2.2.2
          have hz : (removeFirst (fun sn => sn.projectId = project.id) s.snapshots).any
              (fun sn => sn.projectId = project.id) = false :=
            any_removeFirst_self _ _ hle
          rw [hz] at hc
          exact Bool.noConfusion hc
      · have hqne : q.id ≠ pid := id_ne_of_unmatched hwf.2.2.1 hfind hq' hprq
        have hiff := hinv q hq'
        unfold snapshotExistsFor at hiff ⊢
        rw [hsnapshots]
        rw [any_removeFirst_of_ne]
        · exact hiff
        · intro y2 hy2
          simp only [decide_eq_true_eq] at hy2
          simp only [hy2, hexid]
          exact decide_eq_false fun hh => hqne hh.symm
  · -- save
    intro pid payload h
    obtain ⟨existing, slug, content, s₁, hfind, -, hp, -, hprojects, hsnapshots, -, -⟩ :=
      persist_ok_decomp h
    rw [if_neg (by decide)] at hsnapshots
    unfold findActiveProject at hfind
    have hexid : existing.id = pid := by
      have := List.find?_some hfind
      simp only [Bool.and_eq_true, decide_eq_true_eq] at this
      exact this.1
    have hpid2 : p.id = pid := by rw [hp]; exact hexid
    have hstatus : p.status = ProjectStatus.draft := by rw [hp]; rfl
    refine ⟨hstatus, hsnapshots, ?_, ?_⟩
    · intro hinv'
      have hpmem : p ∈ s'.projects := by
        rw [hprojects]
        exact updateFirst_mem_of_find hfind
      have hiff := hinv' p hpmem
      rw [hstatus] at hiff
      cases hsn : snapshotExistsFor s pid
      · rfl
      · exfalso
        have hex : snapshotExistsFor s' p.id = true := by
          unfold snapshotExistsFor
          rw [hsnapshots, hpid2]
          exact hsn
        exact absurd (hiff.mpr hex) (by decide)
    · intro hfree q hq
      rw [hprojects] at hq
      rcases mem_updateFirst_nodup (fun r => r.id) pid hwf.2.2.1
          (fun y hy => by simp only [Bool.and_eq_true, decide_eq_true_eq] at hy; exact hy.1)
          hq with ⟨y, hy, hpy, hqp⟩ | ⟨hq', -⟩
      · have hqp' : q = p := hqp
        rw [hqp']
        refine iff_of_false ?_ ?_
        · rw [hstatus]; decide
        · unfold snapshotExistsFor
          rw [hsnapshots, hpid2]
          intro hc
          have hc' : snapshotExistsFor s pid = true := hc
          rw [hfree] at hc'
          exact Bool.noConfusion hc'
      · have hiff := hinv q hq'
        unfold snapshotExistsFor at hiff ⊢
        rw [hsnapshots]
        exact hiff

/-- C1 counterexample: publishing the fixture draft and then saving it again
leaves a `draft` project whose snapshot still exists, falsifying the
unqualified published-iff-snapshot claim for `saveAdminProject`. -/
theorem claim_C1_counterexample : saveOnPublishedBreaksInvariant = true := by decide

/-- C1 witness: on the well-formed draft fixture (no snapshot), saving keeps
the corrected invariant characterization. -/
theorem claim_C1_witness :
    WellFormedStore fixtureStore ∧ statusSnapshotInvariant fixtureStore ∧
    ∃ s' p, saveAdminProject fixtureStore 1 loosePayload 7 = .ok (s', p) ∧
      p.status = .draft ∧ s'.snapshots = fixtureStore.snapshots ∧
      (statusSnapshotInvariant s' ↔ snapshotExistsFor fixtureStore 1 = false) := by
  have hok : (saveAdminProject fixtureStore 1 loosePayload 7).isOk = true := by decide
  refine ⟨by decide, by decide, ?_⟩
  match h : saveAdminProject fixtureStore 1 loosePayload 7 with
  | .error e =>
    rw [h] at hok
    exact Bool.noConfusion hok
  | .ok (s', p) =>
    exact ⟨s', p, rfl, (claim_C1 (by decide) (by decide)).2.2.2 1 loosePayload h⟩

/--
C2: code bug relative to the spec.  The spec's unpublish operation must
append a `ProjectHistoryEntry` with action `unpublished`, but the
`projectHistory` schema's `action` enum has no such member (while the
`projectVersion` `source` enum does list `unpublish`), so the spec-modelled
`unpublishAdminProject` aborts with a schema-validation error on a published
fixture and no mutation commits.
-/
theorem claim_C2 :
    projectHistoryActions.contains "unpublished" = false ∧
    projectVersionSources.contains "unpublish" = true ∧
    unpublishRejectedBySchema = true := by decide

end ArchPrj
